import Mathlib

/-!
Verification development for the logson log parser core.

The definitions below are a shallow embedding of the TypeScript sources
(the WebWorker `log-parser.worker.ts` and the `LogParserService` that
mirrors it).  JavaScript dynamic values are modelled by the inductive
`JsVal`; JavaScript exceptions thrown while building one entry are
modelled by `Option`/`Except` results (the driver's try/catch skips the
line); the wall clock read by `new Date().toISOString()` is modelled by a
string parameter `now` that is fixed for one invocation of the driver;
the host time zone used by the local-time getters of `Date` is modelled
by an integer parameter `tz` (minutes east of UTC).
-/

set_option maxRecDepth 4000

namespace Logson

mutual
/-- JavaScript values as produced by `JSON.parse` plus `undefined`,
    which arises from missing-property access. -/
inductive JsVal : Type where
  | null : JsVal
  | undefVal : JsVal
  | bool (b : Bool) : JsVal
  | num (n : Int) : JsVal
  | str (s : String) : JsVal
  | arr (elems : JsList) : JsVal
  | obj (fields : JsFields) : JsVal
inductive JsList : Type where
  | nil : JsList
  | cons (hd : JsVal) (tl : JsList) : JsList
inductive JsFields : Type where
  | nil : JsFields
  | cons (key : String) (val : JsVal) (tl : JsFields) : JsFields
end

mutual
def JsVal.beq : JsVal → JsVal → Bool
  | .null, .null => true
  | .undefVal, .undefVal => true
  | .bool a, .bool b => a == b
  | .num a, .num b => a == b
  | .str a, .str b => a == b
  | .arr a, .arr b => JsList.beq a b
  | .obj a, .obj b => JsFields.beq a b
  | _, _ => false
def JsList.beq : JsList → JsList → Bool
  | .nil, .nil => true
  | .cons a as, .cons b bs => JsVal.beq a b && JsList.beq as bs
  | _, _ => false
def JsFields.beq : JsFields → JsFields → Bool
  | .nil, .nil => true
  | .cons k v t, .cons k' v' t' => k == k' && JsVal.beq v v' && JsFields.beq t t'
  | _, _ => false
end

/-- Build a `JsFields` from a Lean list, for readable literals. -/
def fieldsOf : List (String × JsVal) → JsFields
  | [] => .nil
  | (k, v) :: t => .cons k v (fieldsOf t)

/-- Build a `JsList` from a Lean list, for readable literals. -/
def elemsOf : List JsVal → JsList
  | [] => .nil
  | v :: t => .cons v (elemsOf t)

def JsFields.length : JsFields → Nat
  | .nil => 0
  | .cons _ _ t => 1 + t.length

/-- First field with the given key (the JSON parser collapses
    duplicate keys, so lookup order is immaterial). -/
def JsFields.get : JsFields → String → Option JsVal
  | .nil, _ => none
  | .cons k v t, key => if k = key then some v else t.get key

/-- Property access `base[key]` for a base that is not `null`/`undefined`:
    objects look the key up (missing gives `undefined`); every other value
    (primitives, arrays accessed with a non-index key) gives `undefined`.
    Accessing a property of `null`/`undefined` throws in JavaScript; the
    call sites below either test for that case first or are only reached
    with a non-null base, so the total function returns `undefined` there
    and the throwing case is handled explicitly at the call site. -/
def jsGet : JsVal → String → JsVal
  | .obj fs, k => match fs.get k with
    | some v => v
    | none => .undefVal
  | _, _ => .undefVal

/-- JavaScript truthiness.  `NaN` cannot occur (numbers come from the
    JSON parser, which only produces integers here). -/
def jsTruthy : JsVal → Bool
  | .null => false
  | .undefVal => false
  | .bool b => b
  | .num n => !(n == 0)
  | .str s => !(s == "")
  | .arr _ => true
  | .obj _ => true

/-- `a || b`. -/
def jsOr (a b : JsVal) : JsVal := if jsTruthy a then a else b

/-- `base?.key`: short-circuits to `undefined` on `null`/`undefined`,
    otherwise ordinary property access. -/
def jsOptGet (v : JsVal) (k : String) : JsVal :=
  match v with
  | .null => .undefVal
  | .undefVal => .undefVal
  | _ => jsGet v k

/-- `v === "s"` (strict equality against a string literal). -/
def jsEqStr (v : JsVal) (s : String) : Bool :=
  match v with
  | .str t => t == s
  | _ => false

/-! ### String helpers, written over `List Char` so that every closed
    computation reduces in the kernel. -/

/-- The whitespace class of JavaScript `\s`, `String.prototype.trim` and
    blank-line tests (ASCII whitespace plus NBSP and BOM; the remaining
    Unicode space characters do not occur in this development). -/
def jsWs (c : Char) : Bool :=
  c == ' ' || c == '\t' || c == '\n' || c == '\r' ||
  c == '\x0b' || c == '\x0c' || c == '\u00a0' || c == '\ufeff'

/-- Leading-whitespace removal, one side of `trim`. -/
def dropWs : List Char → List Char
  | [] => []
  | c :: t => if jsWs c then dropWs t else c :: t

/-- `s.trim()`. -/
def jsTrimL (cs : List Char) : List Char :=
  ((dropWs ((dropWs cs.reverse)).reverse))

/-- `!line.trim()` — the line is nothing but whitespace. -/
def jsIsBlank (s : String) : Bool := s.data.all jsWs

/-- `needle` is a prefix of `hay`. -/
def isPre : List Char → List Char → Bool
  | [], _ => true
  | _ :: _, [] => false
  | a :: as, b :: bs => a == b && isPre as bs

/-- `hay.includes(needle)` — contiguous substring test. -/
def inclL (needle : List Char) : List Char → Bool
  | [] => isPre needle []
  | hay@(_ :: t) => isPre needle hay || inclL needle t

/-- `s.includes(sub)` on strings. -/
def includesS (s sub : String) : Bool := inclL sub.data s.data

/-- First index `≥ start` at which `needle` occurs in `hay`, as used by
    `toUpperCase().indexOf(needle, start)`. -/
def idxFromAux (needle : List Char) : List Char → Nat → Option Nat
  | [], i => if needle.isEmpty then some i else none
  | hay@(_ :: t), i => if isPre needle hay then some i else idxFromAux needle t (i + 1)

def jsIndexOfFrom (hay needle : List Char) (start : Nat) : Option Nat :=
  (idxFromAux needle (hay.drop start) 0).map (· + start)

/-- `content.split('\n')` (always non-empty; an empty document gives `[""]`). -/
def splitLinesAux : List Char → List Char → List String
  | [], cur => [String.mk cur.reverse]
  | c :: t, cur => if c == '\n' then String.mk cur.reverse :: splitLinesAux t []
                   else splitLinesAux t (c :: cur)

def splitLines (content : String) : List String := splitLinesAux content.data []

/-- The `GetSubstitution` processing `String.prototype.replace` applies
    to a string replacement: `$$` is a literal dollar, `$&` the matched
    text, a dollar followed by the backquote character the part of the
    subject before the match, `$'` the part after it; the regular
    expressions built here have no capture groups and no named groups,
    so `$<` and `$n` digit forms are literal, as is a trailing `$`. -/
def gsDollar (matched str : List Char) (pos : Nat) : List Char → List Char
  | [] => []
  | c :: t =>
    if c == '$' then
      match t with
      | [] => ['$']
      | d :: t' =>
        if d == '$' then '$' :: gsDollar matched str pos t'
        else if d == '&' then matched ++ gsDollar matched str pos t'
        else if d == Char.ofNat 96 then str.take pos ++ gsDollar matched str pos t'
        else if d == Char.ofNat 39 then
          str.drop (pos + matched.length) ++ gsDollar matched str pos t'
        else '$' :: d :: gsDollar matched str pos t'
    else c :: gsDollar matched str pos t

/-- Global replacement by a string, as
    `String.replace(new RegExp(pat, 'g'), rep)` behaves when `pat`
    contains no regular-expression metacharacters (the case exercised
    here: patterns are `{key}` placeholders): matches are found left to
    right against the subject, each replacement text is run through
    `GetSubstitution` relative to the subject and the match position,
    and scanning resumes after the matched text. -/
def replAux (str pat rep : List Char) : Nat → Nat → List Char → List Char
  | 0, _, rem => rem
  | fuel + 1, pos, rem =>
    match rem with
    | [] => []
    | c :: t =>
      if pat ≠ [] && isPre pat rem then
        gsDollar pat str pos rep ++
          replAux str pat rep fuel (pos + pat.length) (rem.drop pat.length)
      else c :: replAux str pat rep fuel (pos + 1) t

def replaceAllL (hay pat rep : List Char) : List Char :=
  replAux hay pat rep hay.length 0 hay

/-- Decimal rendering of an integer, as JavaScript string conversion of an
    integral number. -/
def intStr (n : Int) : String := toString n

/-- `String(n).padStart(2, '0')` for the non-negative calendar components. -/
def pad2 (n : Int) : String :=
  if 0 ≤ n ∧ n < 10 then "0" ++ intStr n else intStr n

/-! ### The `Date` model.

JavaScript `new Date(v)` never throws: it yields either a finite time
value (milliseconds since the epoch) or an *Invalid Date* whose getters
all return `NaN`.  We model a time value as `Option Int`: `none` is the
invalid date / `NaN`.  String arguments are parsed per the ECMAScript
date-time string format (strict ISO-8601 subset `YYYY-MM-DD` optionally
followed by `THH:MM:SS(.fff…)` and an offset `Z`/`±HH:MM`); strings in
any other format are treated as invalid, matching the engines on every
input appearing in this development.  A date-time without an offset is
interpreted in the host zone `tz` (minutes east of UTC); a date-only
string is UTC. -/

/-- Days from the civil epoch 1970-01-01 (Howard Hinnant's algorithm,
    transcribed with Lean's truncating `Int` division, which matches the
    C++ original). -/
def daysFromCivil (y m d : Int) : Int :=
  let y := y - (if m ≤ 2 then 1 else 0)
  let era := Int.tdiv (if 0 ≤ y then y else y - 399) 400
  let yoe := y - era * 400
  let doy := Int.tdiv (153 * (m + (if 2 < m then -3 else 9)) + 2) 5 + d - 1
  let doe := yoe * 365 + Int.tdiv yoe 4 - Int.tdiv yoe 100 + doy
  era * 146097 + doe - 719468

/-- Inverse of `daysFromCivil`: year, month, day of a day count. -/
def civilFromDays (z : Int) : Int × Int × Int :=
  let z := z + 719468
  let era := Int.tdiv (if 0 ≤ z then z else z - 146096) 146097
  let doe := z - era * 146097
  let yoe := Int.tdiv (doe - Int.tdiv doe 1460 + Int.tdiv doe 36524 - Int.tdiv doe 146096) 365
  let y := yoe + era * 400
  let doy := doe - (365 * yoe + Int.tdiv yoe 4 - Int.tdiv yoe 100)
  let mp := Int.tdiv (5 * doy + 2) 153
  let d := doy - Int.tdiv (153 * mp + 2) 5 + 1
  let m := mp + (if mp < 10 then 3 else -9)
  (y + (if m ≤ 2 then 1 else 0), m, d)

def isDigit (c : Char) : Bool := '0' ≤ c && c ≤ '9'

def digitVal (c : Char) : Nat := c.toNat - '0'.toNat

/-- Read exactly `n` digits. -/
def readDigits : Nat → List Char → Option (Nat × List Char)
  | 0, cs => some (0, cs)
  | _ + 1, [] => none
  | n + 1, c :: t =>
    if isDigit c then
      (readDigits n t).map (fun (v, rest) => (digitVal c * 10 ^ n + v, rest))
    else none

/-- Maximal run of digits (at least one). -/
def readDigitRun : List Char → Option (List Char × List Char)
  | [] => none
  | c :: t =>
    if isDigit c then
      match readDigitRun t with
      | some (ds, rest) => some (c :: ds, rest)
      | none => some ([c], t)
    else none

/-- Fractional seconds: the engines keep millisecond precision, reading
    the first three fraction digits (right-padded with zeros). -/
def fracMs (ds : List Char) : Nat :=
  match ds with
  | [] => 0
  | [a] => digitVal a * 100
  | [a, b] => digitVal a * 100 + digitVal b * 10
  | a :: b :: c :: _ => digitVal a * 100 + digitVal b * 10 + digitVal c

def isLeap (y : Int) : Bool := y % 4 == 0 && (y % 100 != 0 || y % 400 == 0)

def daysInMonth (y m : Int) : Int :=
  if m == 2 then (if isLeap y then 29 else 28)
  else if m == 4 || m == 6 || m == 9 || m == 11 then 30
  else 31

/-- Offset suffix of a date-time string: nothing (host zone `tz`),
    `Z` (UTC) or `±HH:MM`.  Returns the offset in minutes. -/
def parseOffset (tz : Int) : List Char → Option Int
  | [] => some tz
  | ['Z'] => some 0
  | c :: t =>
    if c == '+' || c == '-' then
      match readDigits 2 t with
      | some (oh, ':' :: t') =>
        match readDigits 2 t' with
        | some (om, []) =>
          if oh ≤ 23 ∧ om ≤ 59 then
            some ((if c == '-' then -1 else 1) * (oh * 60 + om))
          else none
        | _ => none
      | _ => none
    else none

/-- Time-of-day part `HH:MM(:SS(.f…))?` followed by the offset. -/
def parseTimePart (tz : Int) (cs : List Char) : Option (Nat × Nat × Nat × Nat × Int) := do
  let (hh, cs) ← readDigits 2 cs
  match cs with
  | ':' :: cs =>
    let (mi, cs) ← readDigits 2 cs
    let (ss, ms, cs) ←
      match cs with
      | ':' :: cs' => do
        let (ss, cs') ← readDigits 2 cs'
        match cs' with
        | '.' :: cs'' => do
          let (ds, cs'') ← readDigitRun cs''
          pure (ss, fracMs ds, cs'')
        | _ => pure (ss, 0, cs')
      | _ => pure (0, 0, cs)
    let off ← parseOffset tz cs
    if hh ≤ 23 ∧ mi ≤ 59 ∧ ss ≤ 59 then pure (hh, mi, ss, ms, off) else none
  | _ => none

/-- `new Date(s)` for a string: `some` epoch milliseconds, or `none`
    for an Invalid Date. -/
def jsDateParse (tz : Int) (s : String) : Option Int := do
  let cs := s.data
  let (y, cs) ← readDigits 4 cs
  match cs with
  | '-' :: cs => do
    let (mo, cs) ← readDigits 2 cs
    match cs with
    | '-' :: cs => do
      let (dd, cs) ← readDigits 2 cs
      if 1 ≤ mo ∧ mo ≤ 12 ∧ 1 ≤ dd ∧ (dd : Int) ≤ daysInMonth y mo then
        match cs with
        | [] => pure (daysFromCivil y mo dd * 86400000)
        | 'T' :: rest => do
          let (hh, mi, ss, ms, off) ← parseTimePart tz rest
          pure (daysFromCivil y mo dd * 86400000 +
                (hh : Int) * 3600000 + (mi : Int) * 60000 + (ss : Int) * 1000 + (ms : Int) -
                off * 60000)
        | _ => none
      else none
    | _ => none
  | _ => none

/-- `new Date(v).getTime()` for the values a timestamp can hold.
    Strings are parsed; a number is already a time value; a Boolean is
    converted to 0/1; `null` converts to 0.  Objects and arrays would be
    converted through `toPrimitive` — none reaches a timestamp in this
    program, and the model treats them as invalid. -/
def jsTimeValue (tz : Int) : JsVal → Option Int
  | .str s => jsDateParse tz s
  | .num n => some n
  | .bool b => some (if b then 1 else 0)
  | .null => some 0
  | _ => none

/-- Local-time components (y, m, d, hh, mi, ss) of an epoch value. -/
def localParts (tz : Int) (ms : Int) : Int × Int × Int × Int × Int × Int :=
  let localMs := ms + tz * 60000
  let dayMs := localMs.emod 86400000
  let days := (localMs - dayMs) / 86400000
  let (y, mo, d) := civilFromDays days
  (y, mo, d, dayMs / 3600000, (dayMs / 60000) % 60, (dayMs / 1000) % 60)

/-- `date.getHours()` as a total function on the time value; `none`
    models the `NaN` of an Invalid Date. -/
def jsGetHours (tz : Int) (t : Option Int) : Option Nat :=
  t.map (fun ms => (((ms + tz * 60000).emod 86400000) / 3600000).toNat)

/-! ### A small backtracking matcher for the regular expressions of
    `formatSql`.  Each pattern of the source is transcribed below into a
    `RE`; repetition only ever ranges over a single-character class in
    those patterns, so `rep` carries a character predicate.  Alternation
    tries the left branch first and greedy/lazy repetition enumerates
    candidate lengths from the appropriate end, reproducing the
    backtracking order of the JavaScript engine. -/

inductive RE : Type where
  | eps : RE
  | ch (p : Char → Bool) : RE
  | cat (a b : RE) : RE
  | alt (a b : RE) : RE
  | rep (greedy need1 : Bool) (p : Char → Bool) : RE
  | opt (a : RE) : RE
  | grp (a : RE) : RE

/-- Length of the maximal prefix satisfying `p`. -/
def runLen (p : Char → Bool) : List Char → Nat
  | [] => 0
  | c :: t => if p c then runLen p t + 1 else 0

/-- The capture of the single group, when set. -/
abbrev Cap := Option (List Char)

/-- Continuation-passing matcher: `k` receives the rest of the input and
    the capture state and says whether the overall match can finish. -/
def reM : RE → List Char → Cap → (List Char → Cap → Option Cap) → Option Cap
  | .eps, cs, cap, k => k cs cap
  | .ch p, cs, cap, k =>
    match cs with
    | [] => none
    | c :: t => if p c then k t cap else none
  | .cat a b, cs, cap, k => reM a cs cap (fun cs' cap' => reM b cs' cap' k)
  | .alt a b, cs, cap, k =>
    match reM a cs cap k with
    | some r => some r
    | none => reM b cs cap k
  | .rep greedy need1 p, cs, cap, k =>
    let n := runLen p cs
    let counts := if greedy then (List.range (n + 1)).reverse else List.range (n + 1)
    let counts := if need1 then counts.filter (fun j => 0 < j) else counts
    counts.findSome? (fun j => k (cs.drop j) cap)
  | .opt a, cs, cap, k =>
    match reM a cs cap k with
    | some r => some r
    | none => k cs cap
  | .grp a, cs, cap, k =>
    reM a cs cap (fun cs' _ => k cs' (some (cs.take (cs.length - cs'.length))))

/-- Leftmost match: try each start position from the left; on success
    return the capture of the single group. -/
def reSearchL (re : RE) : List Char → Option Cap
  | [] => reM re [] none (fun _ cap => some cap)
  | cs@(_ :: t) =>
    match reM re cs none (fun _ cap => some cap) with
    | some cap => some cap
    | none => reSearchL re t

/-- The group text of the first match, if the pattern matches at all. -/
def reFind (re : RE) (s : String) : Option (List Char) :=
  match reSearchL re s.data with
  | some (some g) => some g
  | some none => none
  | none => none

/-- Case-insensitive literal (the patterns carry the `i` flag). -/
def litci (s : String) : RE :=
  s.data.foldr (fun c acc => RE.cat (.ch (fun x => x.toLower == c.toLower)) acc) .eps

def catAll : List RE → RE
  | [] => .eps
  | [r] => r
  | r :: t => .cat r (catAll t)

def chEq (c : Char) : RE := .ch (fun x => x == c)

def notRB (c : Char) : Bool := !(c == ']')

/-- `/SELECT\s+(.*?)\s+FROM/is`. -/
def selectRE : RE :=
  catAll [litci "SELECT", .rep true true jsWs, .grp (.rep false false (fun _ => true)),
          .rep true true jsWs, litci "FROM"]

/-- `/FROM\s+\[?(?:dbo|[^\]]*)\]?\.\[?([^\]]+)\]?/i`. -/
def fromRE : RE :=
  catAll [litci "FROM", .rep true true jsWs, .opt (chEq '['),
          .alt (litci "dbo") (.rep true false notRB), .opt (chEq ']'), chEq '.',
          .opt (chEq '['), .grp (.rep true true notRB), .opt (chEq ']')]

/-- `/INSERT\s+INTO\s+\[?([^\]]+)\]?/i`. -/
def insertRE : RE :=
  catAll [litci "INSERT", .rep true true jsWs, litci "INTO", .rep true true jsWs,
          .opt (chEq '['), .grp (.rep true true notRB), .opt (chEq ']')]

/-- `/UPDATE\s+\[?([^\]]+)\]?/i`. -/
def updateRE : RE :=
  catAll [litci "UPDATE", .rep true true jsWs,
          .opt (chEq '['), .grp (.rep true true notRB), .opt (chEq ']')]

/-- `/DELETE\s+FROM\s+\[?([^\]]+)\]?/i`. -/
def deleteRE : RE :=
  catAll [litci "DELETE", .rep true true jsWs, litci "FROM", .rep true true jsWs,
          .opt (chEq '['), .grp (.rep true true notRB), .opt (chEq ']')]

/-- `sql.replace(/^Executed DbCommand.*?\]/s, '')`: when the string starts
    with the literal, the lazy `.*?\]` extends to the first `]` (the
    literal itself contains none); with no `]` the pattern fails and the
    string is unchanged. -/
def stripDbHeader (s : String) : String :=
  let lit := "Executed DbCommand".data
  let cs := s.data
  if isPre lit cs then
    match jsIndexOfFrom cs [']'] lit.length with
    | some i => String.mk (cs.drop (i + 1))
    | none => s
  else s

/-- `s.replace(/[\[\]]/g, '')`. -/
def rmBrackets (cs : List Char) : List Char :=
  cs.filter (fun c => !(c == '[' || c == ']'))

/-- `s.split(',').length`: one more than the number of commas. -/
def splitCommaCount (cs : List Char) : Nat :=
  (cs.filter (fun c => c == ',')).length + 1

/-- The WHERE-clause slice of `formatSql`: from the first
    (case-insensitive) `WHERE` to the nearest of end-of-string,
    `ORDER BY`, `GROUP BY`, `LIMIT`. -/
def whereSlice (cs : List Char) : Option (List Char) :=
  let up := cs.map Char.toUpper
  match jsIndexOfFrom up "WHERE".data 0 with
  | none => none
  | some w =>
    let endIdx := cs.length
    let endIdx := match jsIndexOfFrom up "ORDER BY".data w with
      | some i => min endIdx i
      | none => endIdx
    let endIdx := match jsIndexOfFrom up "GROUP BY".data w with
      | some i => min endIdx i
      | none => endIdx
    let endIdx := match jsIndexOfFrom up "LIMIT".data w with
      | some i => min endIdx i
      | none => endIdx
    some (jsTrimL ((cs.drop (w + 5)).take (endIdx - (w + 5))))

/-- `formatSql` of the worker (and, identically, of the service): a
    heuristic SQL summary with semantic markers. -/
def formatSql (sql0 : String) : String :=
  if sql0 == "" then sql0
  else
    let sql := String.mk (jsTrimL (stripDbHeader sql0).data)
    let cs := sql.data
    let selectM := reFind selectRE sql
    let fromM := reFind fromRE sql
    let whereM := whereSlice cs
    let insertM := reFind insertRE sql
    let updateM := reFind updateRE sql
    let deleteM := reFind deleteRE sql
    match selectM with
    | some cols =>
      let nCols := splitCommaCount cols
      let tableName := match fromM with
        | some t => String.mk (rmBrackets t)
        | none => "Unknown"
      let base := "<select>SELECT " ++ intStr nCols ++ " cols</select> FROM <table>" ++
                  tableName ++ "</table>"
      (match whereM with
       | some wc => base ++ " <where>WHERE " ++ String.mk (jsTrimL (rmBrackets wc)) ++ "</where>"
       | none => base)
    | none =>
      match insertM with
      | some t => "<insert>INSERT INTO</insert> <table>" ++ String.mk (rmBrackets t) ++ "</table>"
      | none =>
        match updateM with
        | some t =>
          let base := "<update>UPDATE</update> <table>" ++ String.mk (rmBrackets t) ++ "</table>"
          (match whereM with
           | some wc => base ++ " <where>WHERE " ++ String.mk (jsTrimL (rmBrackets wc)) ++ "</where>"
           | none => base)
        | none =>
          match deleteM with
          | some t =>
            let base := "<delete>DELETE FROM</delete> <table>" ++ String.mk (rmBrackets t) ++ "</table>"
            -- the DELETE branch of the source trims before removing brackets
            (match whereM with
             | some wc => base ++ " <where>WHERE " ++ String.mk (rmBrackets (jsTrimL wc)) ++ "</where>"
             | none => base)
          | none => String.mk (cs.take 80) ++ "..."

/-! ### Style lookup maps (the worker's `Map` constants). -/

def TYPE_STYLES_MAP : List (String × String) :=
  [("Database", "bg-blue-900 text-blue-200 border border-blue-700"),
   ("HTTP", "bg-green-900 text-green-200 border border-green-700"),
   ("Error", "bg-red-900 text-red-200 border border-red-700"),
   ("Warning", "bg-yellow-900 text-yellow-200 border border-yellow-700"),
   ("ORM", "bg-purple-900 text-purple-200 border border-purple-700"),
   ("Migration", "bg-indigo-900 text-indigo-200 border border-indigo-700"),
   ("App", "bg-cyan-900 text-cyan-200 border border-cyan-700"),
   ("Security", "bg-orange-900 text-orange-200 border border-orange-700"),
   ("Validation", "bg-pink-900 text-pink-200 border border-pink-700"),
   ("Static", "bg-gray-700 text-gray-200 border border-gray-600"),
   ("Log", "bg-gray-700 text-gray-200 border border-gray-600")]

def LEVEL_STYLES_MAP : List (String × String) :=
  [("Error", "bg-red-900 text-red-200 border border-red-700"),
   ("Warning", "bg-yellow-900 text-yellow-200 border border-yellow-700"),
   ("Information", "bg-blue-900 text-blue-200 border border-blue-700"),
   ("Debug", "bg-gray-700 text-gray-300 border border-gray-600"),
   ("Trace", "bg-gray-700 text-gray-300 border border-gray-600"),
   ("Critical", "bg-red-900 text-red-200 border border-red-700")]

def HTTP_METHOD_STYLES_MAP : List (String × String) :=
  [("GET", "bg-blue-900 text-blue-200 border border-blue-700"),
   ("POST", "bg-green-900 text-green-200 border border-green-700"),
   ("PUT", "bg-yellow-900 text-yellow-200 border border-yellow-700"),
   ("PATCH", "bg-purple-900 text-purple-200 border border-purple-700"),
   ("DELETE", "bg-red-900 text-red-200 border border-red-700"),
   ("HEAD", "bg-gray-700 text-gray-200 border border-gray-600"),
   ("OPTIONS", "bg-gray-700 text-gray-200 border border-gray-600")]

def lookupStr (m : List (String × String)) (k : String) : Option String :=
  match m with
  | [] => none
  | (k', v) :: t => if k' == k then some v else lookupStr t k

def DEFAULT_STYLE : String := "bg-gray-700 text-gray-200 border border-gray-600"

def getTypeStyles (t : String) : String :=
  match lookupStr TYPE_STYLES_MAP t with
  | some s => s
  | none => (lookupStr TYPE_STYLES_MAP "Log").getD ""

/-- `getLevelStyles`: the `Map` lookup misses on every non-string key,
    so a non-string level falls to the default style. -/
def getLevelStyles (level : JsVal) : String :=
  match level with
  | .str s => (lookupStr LEVEL_STYLES_MAP s).getD DEFAULT_STYLE
  | _ => DEFAULT_STYLE

def getHttpMethodStyles (method : String) : String :=
  (lookupStr HTTP_METHOD_STYLES_MAP (String.mk (method.data.map Char.toUpper))).getD DEFAULT_STYLE

/-! ### String conversion and JSON serialization of values. -/

/-- JSON string escaping as `JSON.stringify` performs it. -/
def jsonEscChar (c : Char) : List Char :=
  if c == '"' then ['\\', '"']
  else if c == '\\' then ['\\', '\\']
  else if c == '\n' then ['\\', 'n']
  else if c == '\t' then ['\\', 't']
  else if c == '\r' then ['\\', 'r']
  else if c == '\x08' then ['\\', 'b']
  else if c == '\x0c' then ['\\', 'f']
  else if c.toNat < 32 then
    let hex := fun (n : Nat) => (if n < 10 then Char.ofNat ('0'.toNat + n)
                                 else Char.ofNat ('a'.toNat + n - 10))
    ['\\', 'u', '0', '0', hex (c.toNat / 16), hex (c.toNat % 16)]
  else [c]

def jsonEscape (s : String) : String :=
  String.mk ('"' :: s.data.foldr (fun c acc => jsonEscChar c ++ acc) ['"'])

mutual
/-- `String(v)`: the conversion `String.prototype.replace` applies to a
    non-string replacement value.  Plain objects stringify to
    `[object Object]`; arrays join their elements with commas, with
    `null`/`undefined` elements rendering as the empty string. -/
def jsCoerce : JsVal → String
  | .null => "null"
  | .undefVal => "undefined"
  | .bool b => if b then "true" else "false"
  | .num n => intStr n
  | .str s => s
  | .arr es => joinElems es
  | .obj _ => "[object Object]"
def joinElems : JsList → String
  | .nil => ""
  | .cons v .nil => coerceElem v
  | .cons v t => coerceElem v ++ "," ++ joinElems t
def coerceElem : JsVal → String
  | .null => ""
  | .undefVal => ""
  | .bool b => if b then "true" else "false"
  | .num n => intStr n
  | .str s => s
  | .arr es => joinElems es
  | .obj _ => "[object Object]"
end

/-- `ToNumber` as the relational comparisons of `getStatusCodeStyles`
    coerce a non-number operand: Booleans and `null` become 0/1/0, a
    string is trimmed and read as a (signed) decimal integer — the only
    numeric-string shape a status value can take here; non-integral
    forms are not modelled — with the empty string converting to 0, an
    array converts through its comma join, an object's `[object Object]`
    is `NaN`, as is `undefined` (`none` models `NaN`, under which every
    comparison is false). -/
def digitsVal (cs : List Char) : Int :=
  cs.foldl (fun a c => a * 10 + (digitVal c : Int)) 0

def strToNumber (s : String) : Option Int :=
  let cs := jsTrimL s.data
  match cs with
  | [] => some 0
  | '-' :: t => if !t.isEmpty && t.all isDigit then some (-(digitsVal t)) else none
  | '+' :: t => if !t.isEmpty && t.all isDigit then some (digitsVal t) else none
  | _ => if cs.all isDigit then some (digitsVal cs) else none

def jsToNumberForCmp : JsVal → Option Int
  | .num n => some n
  | .bool b => some (if b then 1 else 0)
  | .null => some 0
  | .undefVal => none
  | .str s => strToNumber s
  | .arr es => strToNumber (joinElems es)
  | .obj _ => none

/-- `getStatusCodeStyles` on the stored status value: the source compares
    with `>=`/`<`, which coerce the operand with `ToNumber`; `NaN`
    fails every comparison and gives the default style. -/
def getStatusCodeStyles (v : JsVal) : String :=
  match jsToNumberForCmp v with
  | some n =>
    if 200 ≤ n ∧ n < 300 then "bg-green-900 text-green-200 border border-green-700"
    else if 300 ≤ n ∧ n < 400 then "bg-cyan-900 text-cyan-200 border border-cyan-700"
    else if 400 ≤ n ∧ n < 500 then "bg-yellow-900 text-yellow-200 border border-yellow-700"
    else if 500 ≤ n then "bg-red-900 text-red-200 border border-red-700"
    else DEFAULT_STYLE
  | none => DEFAULT_STYLE

mutual
/-- `JSON.stringify`: object fields with `undefined` values are omitted,
    `undefined` array elements render as `null`. -/
def jsonStringify : JsVal → String
  | .null => "null"
  | .undefVal => "null"
  | .bool b => if b then "true" else "false"
  | .num n => intStr n
  | .str s => jsonEscape s
  | .arr es => "[" ++ stringifyElems es ++ "]"
  | .obj fs => "\x7b" ++ stringifyFields fs ++ "\x7d"
def stringifyElems : JsList → String
  | .nil => ""
  | .cons v .nil => jsonStringify v
  | .cons v t => jsonStringify v ++ "," ++ stringifyElems t
def stringifyFields : JsFields → String
  | .nil => ""
  | .cons _ .undefVal t => stringifyFields t
  | .cons k v t =>
    match t with
    | .nil => jsonEscape k ++ ":" ++ jsonStringify v
    | _ =>
      match stringifyFields t with
      | "" => jsonEscape k ++ ":" ++ jsonStringify v
      | rest => jsonEscape k ++ ":" ++ jsonStringify v ++ "," ++ rest
end

/-- A canonical array-index property key: `"0"`, or digits without a
    leading zero, denoting an integer below 2^32 − 1.  `Object.keys`
    (and JSON object materialization) enumerate these keys first, in
    ascending numeric order, before the remaining string keys in
    insertion order. -/
def keyNumVal (s : String) : Nat :=
  s.data.foldl (fun a c => a * 10 + digitVal c) 0

def isArrayIndexKey (s : String) : Bool :=
  match s.data with
  | [] => false
  | ['0'] => true
  | c :: t => isDigit c && !(c == '0') && t.all isDigit && keyNumVal s < 4294967295

def fieldsFilter (p : String → Bool) : JsFields → JsFields
  | .nil => .nil
  | .cons k v t => if p k then .cons k v (fieldsFilter p t) else fieldsFilter p t

def fieldsAppend : JsFields → JsFields → JsFields
  | .nil, g => g
  | .cons k v t, g => .cons k v (fieldsAppend t g)

def insFieldAsc (k : String) (v : JsVal) : JsFields → JsFields
  | .nil => .cons k v .nil
  | .cons k' v' t =>
    if keyNumVal k < keyNumVal k' then .cons k v (.cons k' v' t)
    else .cons k' v' (insFieldAsc k v t)

def sortIdxFields : JsFields → JsFields
  | .nil => .nil
  | .cons k v t => insFieldAsc k v (sortIdxFields t)

/-- The fields of an object in `Object.keys` enumeration order:
    array-index keys first, ascending, then the rest in insertion
    order. -/
def enumKeysOrder (fs : JsFields) : JsFields :=
  fieldsAppend (sortIdxFields (fieldsFilter isArrayIndexKey fs))
               (fieldsFilter (fun k => !isArrayIndexKey k) fs)

/-- The string substituted for one `{key}` placeholder: the truthy `Name`
    field of an object value; else `value.toString && value.toString()`
    — for an object with an *own* `toString` field (possible in JSON)
    that field shadows `Object.prototype.toString`: a falsy one
    short-circuits the `&&` to the serialization branch, while a truthy
    one is not callable, so the call throws TypeError (`Except.error`,
    the line is skipped); without an own field the inherited call
    returns the default `[object Object]` for objects and the comma
    join for arrays (whose JSON values never own a `toString`); a
    non-default result is used, else the JSON serialization; primitives
    are coerced directly (the coercion happens inside `replace`). -/
def replValue (v : JsVal) : Except Unit String :=
  match v with
  | .obj fs =>
    let nameV := jsGet v "Name"
    if jsTruthy nameV then .ok (jsCoerce nameV)
    else
      (match fs.get "toString" with
       | some ts => if jsTruthy ts then .error () else .ok (jsonStringify v)
       | none => .ok (jsonStringify v))
  | .arr es =>
    let nameV := jsGet v "Name"
    if jsTruthy nameV then .ok (jsCoerce nameV)
    else if !(joinElems es == "[object Object]") then .ok (joinElems es)
    else .ok (jsonStringify v)
  | _ => .ok (jsCoerce v)

/-- The `Object.keys(properties).forEach` replacement loop, one key at a
    time in enumeration order; a throwing `toString` aborts the whole
    formatting (and with it the line). -/
def replaceKeys : JsFields → String → Except Unit String
  | .nil, t => .ok t
  | .cons k v rest, t =>
    match replValue v with
    | .error _ => .error ()
    | .ok r =>
      replaceKeys rest (String.mk (replaceAllL t.data ('\x7b' :: k.data ++ ['\x7d']) r.data))

/-- Index keys of an array, as `Object.keys` enumerates them (already in
    ascending canonical order). -/
def arrKeyFields : JsList → Nat → JsFields
  | .nil, _ => .nil
  | .cons v t, i => .cons (intStr i) v (arrKeyFields t (i + 1))

/-- `formatMessage(template, properties)`.  The template argument is the
    raw value `data.MessageTemplate || data.Message`; a falsy template
    yields the sentinel `"N/A"`.  When `properties` is a (truthy) object
    with at least one key, `message.replace` is invoked, which throws on
    a non-string template — modelled by `Except.error`; with no keys, or
    with non-object properties, the template value is returned as is. -/
def formatMessage (tv props : JsVal) : Except Unit JsVal :=
  if !(jsTruthy tv) then .ok (.str "N/A")
  else
    match props with
    | .obj fs =>
      (match fs with
       | .nil => .ok tv
       | _ =>
         match tv with
         | .str t => (replaceKeys (enumKeysOrder fs) t).map .str
         | _ => .error ())
    | .arr es =>
      (match es with
       | .nil => .ok tv
       | _ =>
         match tv with
         | .str t => (replaceKeys (arrKeyFields es 0) t).map .str
         | _ => .error ())
    | _ => .ok tv

/-! ### `JSON.parse`.

A recursive-descent parser for the JSON grammar, written with a fuel
argument (one unit per character consumed, so `length + 1` always
suffices) to keep the recursion structural and kernel-reducible.
Numbers: the records this program consumes carry only integral numbers,
and the model parses exactly those (an optional minus sign and an
integer part without leading zeros); a fractional or exponent part makes
the parse fail where JavaScript would succeed, which only widens the set
of lines handed to the fallback grammar and is never exercised here.
`\u` escapes outside the surrogate range are decoded. -/

def skipWsJ : List Char → List Char
  | [] => []
  | c :: t => if c == ' ' || c == '\t' || c == '\n' || c == '\r' then skipWsJ t else c :: t

def hexVal (c : Char) : Option Nat :=
  if '0' ≤ c ∧ c ≤ '9' then some (c.toNat - '0'.toNat)
  else if 'a' ≤ c ∧ c ≤ 'f' then some (c.toNat - 'a'.toNat + 10)
  else if 'A' ≤ c ∧ c ≤ 'F' then some (c.toNat - 'A'.toNat + 10)
  else none

/-- Body of a JSON string after the opening quote. -/
def jpStringAux : Nat → List Char → Option (List Char × List Char)
  | 0, _ => none
  | _ + 1, [] => none
  | fuel + 1, c :: t =>
    if c == '"' then some ([], t)
    else if c == '\\' then
      match t with
      | [] => none
      | e :: t' =>
        let dec : Option (Char × List Char) :=
          if e == '"' then some ('"', t')
          else if e == '\\' then some ('\\', t')
          else if e == '/' then some ('/', t')
          else if e == 'n' then some ('\n', t')
          else if e == 't' then some ('\t', t')
          else if e == 'r' then some ('\r', t')
          else if e == 'b' then some ('\x08', t')
          else if e == 'f' then some ('\x0c', t')
          else if e == 'u' then
            match t' with
            | a :: b :: c' :: d :: t'' =>
              match hexVal a, hexVal b, hexVal c', hexVal d with
              | some ha, some hb, some hc, some hd =>
                some (Char.ofNat (ha * 4096 + hb * 256 + hc * 16 + hd), t'')
              | _, _, _, _ => none
            | _ => none
          else none
        match dec with
        | some (ch, rest) => (jpStringAux fuel rest).map (fun (s, r) => (ch :: s, r))
        | none => none
    else if c.toNat < 32 then none
    else (jpStringAux fuel t).map (fun (s, r) => (c :: s, r))

/-- Integer literal: optional minus, then `0` or a nonzero-led digit run. -/
def jpNumber (cs : List Char) : Option (Int × List Char) :=
  let core : List Char → Option (Nat × List Char) := fun cs =>
    match cs with
    | [] => none
    | c :: t =>
      if c == '0' then some (0, t)
      else if isDigit c then
        match readDigitRun (c :: t) with
        | some (ds, rest) => some (ds.foldl (fun a d => a * 10 + digitVal d) 0, rest)
        | none => none
      else none
  match cs with
  | '-' :: t => (core t).bind (fun (n, rest) =>
      match rest with
      | '.' :: _ => none
      | 'e' :: _ => none
      | 'E' :: _ => none
      | _ => some (-(n : Int), rest))
  | _ => (core cs).bind (fun (n, rest) =>
      match rest with
      | '.' :: _ => none
      | 'e' :: _ => none
      | 'E' :: _ => none
      | _ => some ((n : Int), rest))

/-- Replace-or-append a field, modelling the duplicate-key behaviour of
    `JSON.parse` (first position kept, last value wins). -/
def setField : JsFields → String → JsVal → JsFields
  | .nil, k, v => .cons k v .nil
  | .cons k' v' t, k, v =>
    if k' == k then .cons k' v t else .cons k' v' (setField t k v)

mutual
def jpVal : Nat → List Char → Option (JsVal × List Char)
  | 0, _ => none
  | fuel + 1, cs =>
    let cs := skipWsJ cs
    match cs with
    | [] => none
    | c :: t =>
      if c == '"' then (jpStringAux fuel t).map (fun (s, r) => (JsVal.str (String.mk s), r))
      else if c == '\x7b' then
        match skipWsJ t with
        | '\x7d' :: r => some (.obj .nil, r)
        | t' => (jpFields fuel t' .nil).map (fun (fs, r) => (JsVal.obj fs, r))
      else if c == '[' then
        match skipWsJ t with
        | ']' :: r => some (.arr .nil, r)
        | t' => (jpElems fuel t').map (fun (es, r) => (JsVal.arr es, r))
      else if isPre "true".data cs then some (.bool true, cs.drop 4)
      else if isPre "false".data cs then some (.bool false, cs.drop 5)
      else if isPre "null".data cs then some (.null, cs.drop 4)
      else (jpNumber cs).map (fun (n, r) => (JsVal.num n, r))
def jpFields : Nat → List Char → JsFields → Option (JsFields × List Char)
  | 0, _, _ => none
  | fuel + 1, cs, acc =>
    match skipWsJ cs with
    | '"' :: t =>
      match jpStringAux fuel t with
      | some (k, r) =>
        (match skipWsJ r with
         | ':' :: r' =>
           match jpVal fuel r' with
           | some (v, r'') =>
             let acc' := setField acc (String.mk k) v
             (match skipWsJ r'' with
              | ',' :: r3 => jpFields fuel r3 acc'
              | '\x7d' :: r3 => some (acc', r3)
              | _ => none)
           | none => none
         | _ => none)
      | none => none
    | _ => none
def jpElems : Nat → List Char → Option (JsList × List Char)
  | 0, _ => none
  | fuel + 1, cs =>
    match jpVal fuel cs with
    | some (v, r) =>
      (match skipWsJ r with
       | ',' :: r' => (jpElems fuel r').map (fun (es, r'') => (JsList.cons v es, r''))
       | ']' :: r' => some (.cons v .nil, r')
       | _ => none)
    | none => none
end

/-- `JSON.parse(line)`: the whole line, up to surrounding whitespace,
    must be one JSON value. -/
def jsonParse (line : String) : Option JsVal :=
  match jpVal (line.data.length + 1) line.data with
  | some (v, rest) => if skipWsJ rest = [] then some v else none
  | none => none

/-! ### The fallback text grammar and its helpers. -/

def isWordChar (c : Char) : Bool :=
  ('a' ≤ c && c ≤ 'z') || ('A' ≤ c && c ≤ 'Z') || isDigit c || c == '_'

/-- `mapLogLevel`. -/
def mapLogLevel (level : String) : String :=
  if level == "WRN" then "Warning"
  else if level == "ERR" then "Error"
  else if level == "INF" then "Information"
  else if level == "DBG" then "Debug"
  else if level == "FTL" then "Fatal"
  else level

/-- `getSourceContextFromMessage`. -/
def getSourceContextFromMessage (message : String) : String :=
  if isPre "Executed DbCommand".data message.data then "EntityFrameworkCore.Database"
  else if isPre "Request starting".data message.data then "AspNetCore.Routing"
  else if isPre "Request finished".data message.data then "AspNetCore.Routing"
  else if isPre "Executing endpoint".data message.data then "AspNetCore.Routing"
  else ""

/-- `extractHttpStatus`: first occurrence of `-\s*(\d{3})\s*-`, with the
    parsed code accepted only in 200..500.  The scan tries start
    positions left to right: a dash, optional whitespace, exactly three
    digits not followed by a fourth, optional whitespace, a dash. -/
def statusAt (cs : List Char) : Option Nat :=
  match cs with
  | '-' :: t =>
    let t := dropWs t
    match t with
    | a :: b :: c :: rest =>
      if isDigit a && isDigit b && isDigit c then
        match rest with
        | d :: _ => if isDigit d then none
                    else (match dropWs rest with
                          | '-' :: _ => some (digitVal a * 100 + digitVal b * 10 + digitVal c)
                          | _ => none)
        | [] => none
      else none
    | _ => none
  | _ => none

def scanStatus : List Char → Option Nat
  | [] => none
  | cs@(_ :: t) =>
    match statusAt cs with
    | some n => some n
    | none => scanStatus t

def extractHttpStatus (line : String) : Option Int :=
  match scanStatus line.data with
  | some code => if 200 ≤ code ∧ code ≤ 500 then some (code : Int) else none
  | none => none

/-- `extractHttpMethod`: leftmost whole-word occurrence of an HTTP verb,
    alternatives tried in the order of the source pattern. -/
def HTTP_VERBS : List String := ["GET", "POST", "PUT", "DELETE", "PATCH", "OPTIONS", "HEAD"]

def verbAt (cs : List Char) (prevWord : Bool) : Option String :=
  if prevWord then none
  else HTTP_VERBS.find? (fun v =>
    isPre v.data cs &&
    (match cs.drop v.data.length with
     | [] => true
     | c :: _ => !isWordChar c))

def scanVerb : List Char → Bool → Option String
  | [], _ => none
  | cs@(c :: t), prevWord =>
    match verbAt cs prevWord with
    | some v => some v
    | none => scanVerb t (isWordChar c)

def extractHttpMethod (line : String) : Option String := scanVerb line.data false

/-- Take exactly `n` digit characters, returning them verbatim. -/
def takeDigits : Nat → List Char → Option (List Char × List Char)
  | 0, cs => some ([], cs)
  | _ + 1, [] => none
  | n + 1, c :: t =>
    if isDigit c then (takeDigits n t).map (fun (ds, rest) => (c :: ds, rest))
    else none

/-- The anchored pattern
    `^(\d{4}-\d{2}-\d{2})\s+(\d{2}:\d{2}:\d{2}\.\d+)\s+([+-]\d{2}:\d{2})\s+\[?(\w+)\]?\s+([\s\S]*)$`.
    Every boundary is between disjoint character classes, so the match is
    deterministic and is transcribed as a hand-written parser returning
    the five capture groups verbatim. -/
def textLineGroups (line : String) : Option (String × String × String × String × String) := do
  let cs := line.data
  -- (\d{4}-\d{2}-\d{2})
  let (y, cs) ← takeDigits 4 cs
  let cs ← match cs with | '-' :: t => some t | _ => none
  let (mo, cs) ← takeDigits 2 cs
  let cs ← match cs with | '-' :: t => some t | _ => none
  let (dd, cs) ← takeDigits 2 cs
  let date := String.mk (y ++ '-' :: mo ++ '-' :: dd)
  -- \s+
  let n := runLen jsWs cs
  if n == 0 then none else
  let cs := cs.drop n
  -- (\d{2}:\d{2}:\d{2}\.\d+)
  let (hh, cs) ← takeDigits 2 cs
  let cs ← match cs with | ':' :: t => some t | _ => none
  let (mi, cs) ← takeDigits 2 cs
  let cs ← match cs with | ':' :: t => some t | _ => none
  let (ss, cs) ← takeDigits 2 cs
  let cs ← match cs with | '.' :: t => some t | _ => none
  let (frac, cs) ← readDigitRun cs
  let time := String.mk (hh ++ ':' :: mi ++ ':' :: ss ++ '.' :: frac)
  -- \s+
  let n := runLen jsWs cs
  if n == 0 then none else
  let cs := cs.drop n
  -- ([+-]\d{2}:\d{2})
  let sign ← match cs with
    | c :: _ => if c == '+' || c == '-' then some c else none
    | [] => none
  let cs := cs.drop 1
  let (oh, cs) ← takeDigits 2 cs
  let cs ← match cs with | ':' :: t => some t | _ => none
  let (om, cs) ← takeDigits 2 cs
  let offset := String.mk (sign :: oh ++ ':' :: om)
  -- \s+
  let n := runLen jsWs cs
  if n == 0 then none else
  let cs := cs.drop n
  -- \[?
  let cs := match cs with
    | '[' :: t => t
    | _ => cs
  -- (\w+)
  let wn := runLen isWordChar cs
  if wn == 0 then none else
  let level := String.mk (cs.take wn)
  let cs := cs.drop wn
  -- \]?
  let cs := match cs with
    | ']' :: t => t
    | _ => cs
  -- \s+
  let n := runLen jsWs cs
  if n == 0 then none else
  let cs := cs.drop n
  -- ([\s\S]*)$
  pure (date, time, offset, level, String.mk cs)

/-- `parseTextLogLine` builds the generic record of the fallback grammar. -/
def parseTextLogLine (line : String) : Option JsVal :=
  match textLineGroups line with
  | none => none
  | some (date, time, offset, level, message) =>
    let timestamp := date ++ "T" ++ time ++ offset
    let sourceContext := getSourceContextFromMessage message
    some (.obj (fieldsOf
      [("Timestamp", .str timestamp),
       ("Level", .str (mapLogLevel level)),
       ("SourceContext", .str sourceContext),
       ("Message", .str message),
       ("Properties", .obj (fieldsOf
         [("StatusCode",
           if sourceContext == "AspNetCore.Routing" then
             (match extractHttpStatus message with
              | some n => .num n
              | none => .null)
           else .undefVal),
          ("Method",
           match extractHttpMethod message with
           | some m => .str m
           | none => .null)]))]))

/-! ### Type detection. -/

/-- The ordered first-match-wins substring chain of `detectLogType`,
    applied to the extracted source context and the record's `Level`. -/
def detectChain (sc : String) (level : JsVal) : String :=
  if includesS sc "EntityFrameworkCore.Database" then "Database"
  else if includesS sc "EntityFrameworkCore.Migrations" then "Migration"
  else if includesS sc "EntityFrameworkCore" then "ORM"
  else if includesS sc "AspNetCore.Hosting.Diagnostics" || includesS sc "AspNetCore.Routing" ||
          includesS sc "AspNetCore.Mvc" then "HTTP"
  else if includesS sc "DataProtection" then "Security"
  else if includesS sc "StaticFiles" then "Static"
  else if includesS sc "Lifetime" then "App"
  else if includesS sc "Validation" then "Validation"
  else if jsEqStr level "Error" then "Error"
  else if jsEqStr level "Warning" then "Warning"
  else "Log"

/-- `data.Properties?.SourceContext || data.SourceContext || ''`. -/
def sourceContextOf (data : JsVal) : JsVal :=
  jsOr (jsOptGet (jsGet data "Properties") "SourceContext")
       (jsOr (jsGet data "SourceContext") (.str ""))

/-- `detectLogType`.  Property access on a `null`/`undefined` record and
    `.includes` on a truthy non-string context throw in JavaScript;
    both are modelled by `Except.error` (the driver's catch skips the
    line). -/
def detectLogType (data : JsVal) : Except Unit String :=
  match data with
  | .null => .error ()
  | .undefVal => .error ()
  | _ =>
    match sourceContextOf data with
    | .str s => .ok (detectChain s (jsGet data "Level"))
    | _ => .error ()

/-! ### The cached date formatter (worker version). -/

/-- The date cache: a `Map` keyed by the raw timestamp value.  We keep
    insertion order; `has`/`get` compare keys with value equality. -/
abbrev DateCache := List (JsVal × String)

def cacheLookup : DateCache → JsVal → Option String
  | [], _ => none
  | (k, v) :: t, key => if JsVal.beq k key then some v else cacheLookup t key

def DATE_CACHE_MAX : Nat := 10000

/-- The string the worker's `formatDate` builds for a time value.
    `new Date(timestamp)` never throws; for an Invalid Date every getter
    returns `NaN`, `String(NaN).padStart(2, '0')` is `"NaN"`, and the
    template assembles `"NaN/NaN/NaN, NaN:NaN:NaN"` — the `catch` branch
    of the source (meant to return the raw input) is unreachable. -/
def formatDateRaw (tz : Int) (t : Option Int) : String :=
  match t with
  | some ms =>
    let (y, mo, d, hh, mi, ss) := localParts tz ms
    pad2 d ++ "/" ++ pad2 mo ++ "/" ++ intStr y ++ ", " ++
    pad2 hh ++ ":" ++ pad2 mi ++ ":" ++ pad2 ss
  | none => "NaN/NaN/NaN, NaN:NaN:NaN"

/-- `formatDate` with its process-wide cache: a hit returns the cached
    string; a miss computes the display string and stores it only while
    the cache is below its cap. -/
def formatDate (tz : Int) (cache : DateCache) (timestamp : JsVal) : String × DateCache :=
  match cacheLookup cache timestamp with
  | some v => (v, cache)
  | none =>
    let formatted := formatDateRaw tz (jsTimeValue tz timestamp)
    (formatted,
     if cache.length < DATE_CACHE_MAX then cache ++ [(timestamp, formatted)] else cache)

/-! ### Entries and the per-line builder. -/

structure Entry where
  timestamp : JsVal
  formattedDate : String
  hour : Option Nat
  data : JsVal
  raw : String
  type : String
  typeClass : String
  level : JsVal
  levelClass : String
  message : JsVal
  statusCode : Option JsVal
  statusCodeClass : Option String
  httpMethod : Option JsVal
  httpMethodClass : Option String
  correlationId : Option JsVal
  sql : Option JsVal
  sqlFormatted : Option String
  requestPath : Option JsVal

/-- The `type === 'HTTP'` branch extracting the HTTP method: a truthy
    non-string `Method` makes `method.toUpperCase()` throw (`none`). -/
def httpMethodOf (type : String) (methodV : JsVal) : Option (Option JsVal × Option String) :=
  if type == "HTTP" then
    (if jsTruthy methodV then
       match methodV with
       | .str m => some (some methodV, some (getHttpMethodStyles m))
       | _ => none
     else some (none, none))
  else some (none, none)

/-- The `type === 'Database'` branch extracting the SQL text, its summary
    and the request path: a truthy non-string command text makes
    `sql.replace` inside `formatSql` throw (`none`). -/
def sqlInfoOf (type : String) (props message : JsVal) :
    Option (Option JsVal × Option String × Option JsVal) :=
  if type == "Database" then
    let sqlV := jsOr (jsGet props "CommandText") message
    let rpV := jsGet props "RequestPath"
    let requestPath := if jsTruthy rpV then some rpV else none
    (if jsTruthy sqlV then
       match sqlV with
       | .str s => some (some sqlV, some (formatSql s), requestPath)
       | _ => none
     else some (some sqlV, none, requestPath))
  else some (none, none, none)

/-- The worker loop body after a (non-null) record was obtained:
    lines 304–365 of the worker.  `none` models a thrown exception,
    which the surrounding `try`/`catch` turns into a skipped line. -/
def buildEntryCore (now : String) (tz : Int) (cache : DateCache) (data : JsVal)
    (line : String) : Option (Entry × DateCache) :=
    let timestamp := jsOr (jsGet data "Timestamp") (jsOr (jsGet data "timestamp") (.str now))
    let hour := jsGetHours tz (jsTimeValue tz timestamp)
    match detectLogType data with
    | .error _ => none
    | .ok type =>
      let typeClass := getTypeStyles type
      let level := jsOr (jsGet data "Level") (.str "Information")
      let levelClass := getLevelStyles level
      match formatMessage (jsOr (jsGet data "MessageTemplate") (jsGet data "Message"))
              (jsGet data "Properties") with
      | .error _ => none
      | .ok message =>
        let props := jsOr (jsGet data "Properties") (.obj .nil)
        let statusCodeV := jsGet props "StatusCode"
        let statusCode := if jsTruthy statusCodeV then some statusCodeV else none
        let statusCodeClass := statusCode.map getStatusCodeStyles
        match httpMethodOf type (jsGet props "Method") with
        | none => none
        | some (httpMethod, httpMethodClass) =>
          let corrV := jsOr (jsGet props "RequestId") (jsOr (jsGet props "TraceId")
                        (jsOr (jsGet props "CorrelationId") (jsGet props "CorrelationIdentifier")))
          let correlationId := if jsTruthy corrV then some corrV else none
          match sqlInfoOf type props message with
          | none => none
          | some (sql, sqlFormatted, requestPath) =>
            let (formattedDate, cache') := formatDate tz cache timestamp
            some ({ timestamp := timestamp
                    formattedDate := formattedDate
                    hour := hour
                    data := data
                    raw := line
                    type := type
                    typeClass := typeClass
                    level := level
                    levelClass := levelClass
                    message := message
                    statusCode := statusCode
                    statusCodeClass := statusCodeClass
                    httpMethod := httpMethod
                    httpMethodClass := httpMethodClass
                    correlationId := correlationId
                    sql := sql
                    sqlFormatted := sqlFormatted
                    requestPath := requestPath }, cache')

/-- `buildEntry` proper: the first statement of the loop body,
    `data.Timestamp`, throws when the record is `null` (a line such as
    `"null"` parses but is skipped); the rest is `buildEntryCore`. -/
def buildEntry (now : String) (tz : Int) (cache : DateCache) (data : JsVal) (line : String) :
    Option (Entry × DateCache) :=
  match data with
  | .null => none
  | .undefVal => none
  | _ => buildEntryCore now tz cache data line

/-- The record a line yields: strict JSON decode first, else the fallback
    grammar; blank lines yield nothing. -/
def parseLineData (line : String) : Option JsVal :=
  if jsIsBlank line then none
  else
    match jsonParse line with
    | some d => some d
    | none => parseTextLogLine line

/-- One loop iteration of `parseLogFile`: `none` when the line is blank,
    matches neither format, or entry building throws. -/
def processLine (now : String) (tz : Int) (cache : DateCache) (line : String) :
    Option (Entry × DateCache) :=
  match parseLineData line with
  | none => none
  | some data => buildEntry now tz cache data line

/-! ### The final sort and the chunked driver. -/

/-- `new Date(e.timestamp).getTime()` — the sort key. -/
def sortKey (tz : Int) (e : Entry) : Option Int := jsTimeValue tz e.timestamp

/-- The comparator `(a, b) => getTime(b) - getTime(a)` deems `a` well
    placed before `b` when the difference is not positive; with an
    invalid date the difference is `NaN`, which the sort treats as 0. -/
def sortLe (tz : Int) (a b : Entry) : Bool :=
  match sortKey tz a, sortKey tz b with
  | some ka, some kb => kb ≤ ka
  | _, _ => true

/-- Stable insertion with respect to `sortLe`: an element is placed
    before the first earlier element it must precede, preserving the
    original order of ties — extensionally the behaviour of the stable
    `Array.prototype.sort` for a consistent comparator, and the
    encounter order on the `NaN` ties the comparator cannot rank. -/
def insEntry (tz : Int) (x : Entry) : List Entry → List Entry
  | [] => [x]
  | y :: ys => if sortLe tz x y then x :: y :: ys else y :: insEntry tz x ys

def jsSortLogs (tz : Int) : List Entry → List Entry
  | [] => []
  | x :: xs => insEntry tz x (jsSortLogs tz xs)

structure Progress where
  processed : Nat
  total : Nat
  logs : List Entry

/-- `i % chunkSize === 0` — with `chunkSize = 0` the JavaScript modulo is
    `NaN` and the test is false. -/
def emitCond (chunkSize i : Nat) : Bool := decide (0 < chunkSize ∧ i % chunkSize = 0)

/-- The worker loop over the remaining lines: accumulates entries and the
    date cache, and collects every `postMessage` progress snapshot. -/
def runLines (chunkSize : Nat) (now : String) (tz : Int) (total : Nat) :
    List String → Nat → List Entry → DateCache → List Entry × DateCache × List Progress
  | [], _, logs, cache => (logs, cache, [])
  | l :: rest, i, logs, cache =>
    match processLine now tz cache l with
    | none => runLines chunkSize now tz total rest (i + 1) logs cache
    | some (e, cache') =>
      let logs' := logs ++ [e]
      let (lg, cf, msgs) := runLines chunkSize now tz total rest (i + 1) logs' cache'
      if emitCond chunkSize i then (lg, cf, ⟨i, total, logs'⟩ :: msgs) else (lg, cf, msgs)

/-- `parseLogFile(content, chunkSize)`: the full driver, returning the
    sequence of posted progress messages in order (intermediate
    snapshots, then the terminal snapshot with the once-sorted logs). -/
def parseLogFile (content : String) (chunkSize : Nat) (now : String) (tz : Int)
    (cache : DateCache) : List Progress :=
  let lines := splitLines content
  let total := lines.length
  let (logs, _, msgs) := runLines chunkSize now tz total lines 0 [] cache
  msgs ++ [⟨total, total, jsSortLogs tz logs⟩]

/-! ### Specification-side folds used to state the driver theorems. -/

/-- Entries produced by a list of lines, threading the date cache. -/
def entriesAcc (now : String) (tz : Int) : List String → DateCache → List Entry × DateCache
  | [], c => ([], c)
  | l :: rest, c =>
    match processLine now tz c l with
    | none => entriesAcc now tz rest c
    | some (e, c') =>
      let (es, c'') := entriesAcc now tz rest c'
      (e :: es, c'')

def entriesOf (now : String) (tz : Int) (c : DateCache) (ls : List String) : List Entry :=
  (entriesAcc now tz ls c).1

def cacheAfter (now : String) (tz : Int) (c : DateCache) (ls : List String) : DateCache :=
  (entriesAcc now tz ls c).2

/-- Whether a record carries its own (truthy) timestamp, in which case
    the wall clock is never consulted for it. -/
def tsTruthy (d : JsVal) : Bool :=
  jsTruthy (jsGet d "Timestamp") || jsTruthy (jsGet d "timestamp")

/-- A placeholder entry, only used as the default of `Option.getD` when a
    witness names the entry a concrete line is known to produce. -/
def dfltEntry : Entry :=
  { timestamp := .undefVal, formattedDate := "", hour := none, data := .undefVal, raw := ""
    type := "", typeClass := "", level := .undefVal, levelClass := "", message := .undefVal
    statusCode := none, statusCodeClass := none, httpMethod := none, httpMethodClass := none
    correlationId := none, sql := none, sqlFormatted := none, requestPath := none }

def dfltPair : Entry × DateCache := (dfltEntry, [])

/-- The Example-2 line of the specification, verbatim. -/
def ex2Line : String :=
  "2024-01-01 10:15:30.123456 +00:00 [ERR] Executed DbCommand ... SELECT Id, Name FROM [dbo].[Users] WHERE Id = 5"

/-- A fixed two-line document (text grammar, out of chronological order)
    used by witnesses. -/
def twoLinesC : String :=
  "2024-01-01 10:00:00.000 +00:00 [INF] one\n2024-01-02 11:00:00.000 +00:00 [INF] two"

instance : Inhabited Progress := ⟨⟨0, 0, []⟩⟩

/-- A one-line document whose single line yields an entry at index 0. -/
def c5wC : String := "2024-01-01 10:00:00.000 +00:00 [INF] hello"

/-- The first intermediate snapshot the driver posts on `c5wC`. -/
def c5wP : Progress := ((parseLogFile c5wC 5000 "N" 0 []).dropLast).headI

/-- A text line with a parseable timestamp, and the entry it yields. -/
def lineC4 : String := "2024-01-01 10:00:00.000 +00:00 [INF] hi"

def pC4 : Entry × DateCache := (processLine "N" 0 [] lineC4).getD dfltPair

/-- A structured line without a timestamp field, and the entry it
    yields when parsed with wall clock `"2024-05-05T06:07:08.000Z"`. -/
def lineC10 : String := "\x7b\"Level\":\"Error\"\x7d"

def pC10 : Entry × DateCache :=
  (processLine "2024-05-05T06:07:08.000Z" 0 [] lineC10).getD dfltPair

/-! ## Theorems. -/

/-! ### Shared lemmas about the sort. -/

theorem mem_insEntry {tz : Int} {x z : Entry} {l : List Entry} :
    z ∈ insEntry tz x l ↔ z = x ∨ z ∈ l := by
  induction l with
  | nil => simp [insEntry]
  | cons y ys ih =>
    by_cases h : sortLe tz x y = true
    · simp [insEntry, h]
    · simp only [insEntry, if_neg h, List.mem_cons, ih]
      tauto

theorem insEntry_perm (tz : Int) (x : Entry) (l : List Entry) :
    (insEntry tz x l).Perm (x :: l) := by
  induction l with
  | nil => simp [insEntry]
  | cons y ys ih =>
    by_cases h : sortLe tz x y = true
    · simp [insEntry, h]
    · simp only [insEntry, if_neg h]
      exact ((ih.cons y).trans (List.Perm.swap x y ys))

theorem jsSortLogs_perm (tz : Int) (l : List Entry) : (jsSortLogs tz l).Perm l := by
  induction l with
  | nil => simp [jsSortLogs]
  | cons x xs ih => exact (insEntry_perm tz x (jsSortLogs tz xs)).trans (ih.cons x)

theorem sortLe_total (tz : Int) (a b : Entry) :
    sortLe tz a b = true ∨ sortLe tz b a = true := by
  cases hka : sortKey tz a <;> cases hkb : sortKey tz b <;>
    simp [sortLe, hka, hkb] <;> try omega

theorem sortLe_trans_mid {tz : Int} {a b c : Entry}
    (hb : (sortKey tz b).isSome = true)
    (hab : sortLe tz a b = true) (hbc : sortLe tz b c = true) :
    sortLe tz a c = true := by
  cases hka : sortKey tz a <;> cases hkb : sortKey tz b <;> cases hkc : sortKey tz c <;>
    simp_all [sortLe] <;> try omega

theorem insEntry_pairwise {tz : Int} {x : Entry} {l : List Entry}
    (hl : ∀ y ∈ l, (sortKey tz y).isSome = true)
    (h : l.Pairwise (fun a b => sortLe tz a b = true)) :
    (insEntry tz x l).Pairwise (fun a b => sortLe tz a b = true) := by
  induction l with
  | nil => simp [insEntry]
  | cons y ys ih =>
    rcases List.pairwise_cons.mp h with ⟨hy, hys⟩
    by_cases hxy : sortLe tz x y = true
    · rw [insEntry, if_pos hxy]
      refine List.pairwise_cons.mpr ⟨?_, h⟩
      intro z hz
      rcases List.mem_cons.mp hz with rfl | hz'
      · exact hxy
      · exact sortLe_trans_mid (hl y (by simp)) hxy (hy z hz')
    · rw [insEntry, if_neg hxy]
      refine List.pairwise_cons.mpr ⟨?_, ih (fun z hz => hl z (by simp [hz])) hys⟩
      intro z hz
      rcases mem_insEntry.mp hz with hzx | hz'
      · rw [hzx]
        rcases sortLe_total tz x y with hx | hx
        · exact absurd hx hxy
        · exact hx
      · exact hy z hz'

theorem jsSortLogs_pairwise {tz : Int} {l : List Entry}
    (hl : ∀ e ∈ l, (sortKey tz e).isSome = true) :
    (jsSortLogs tz l).Pairwise (fun a b => sortLe tz a b = true) := by
  induction l with
  | nil => simp [jsSortLogs]
  | cons x xs ih =>
    refine insEntry_pairwise ?_ (ih (fun z hz => hl z (by simp [hz])))
    intro y hy
    exact hl y (by
      have := (jsSortLogs_perm tz xs).mem_iff.mp hy
      simp [this])

/-! ### Shared lemmas about the driver loop. -/

theorem entriesAcc_cons_none {now : String} {tz : Int} {c : DateCache} {l : String}
    {ls : List String} (h : processLine now tz c l = none) :
    entriesAcc now tz (l :: ls) c = entriesAcc now tz ls c := by
  simp [entriesAcc, h]

theorem entriesAcc_cons_some {now : String} {tz : Int} {c c' : DateCache} {l : String}
    {e : Entry} {ls : List String} (h : processLine now tz c l = some (e, c')) :
    entriesAcc now tz (l :: ls) c
      = (e :: (entriesAcc now tz ls c').1, (entriesAcc now tz ls c').2) := by
  simp [entriesAcc, h]

theorem runLines_logs (cs : Nat) (now : String) (tz : Int) (total : Nat) :
    ∀ (ls : List String) (i : Nat) (logs : List Entry) (c : DateCache),
    (runLines cs now tz total ls i logs c).1 = logs ++ entriesOf now tz c ls := by
  intro ls
  induction ls with
  | nil => intro i logs c; simp [runLines, entriesOf, entriesAcc]
  | cons l rest ih =>
    intro i logs c
    rcases hpl : processLine now tz c l with _ | ⟨e, c'⟩
    · rw [runLines, hpl, ih]
      simp [entriesOf, entriesAcc_cons_none hpl]
    · rw [runLines, hpl]
      rcases hemit : emitCond cs i <;>
        simp [hemit, ih, entriesOf, entriesAcc_cons_some hpl]

/-- Unfolding of the driver: the intermediate snapshots of the loop,
    followed by the terminal snapshot holding the once-sorted entry
    sequence. -/
theorem parseLogFile_unfold (content : String) (chunkSize : Nat) (now : String) (tz : Int)
    (cache : DateCache) :
    parseLogFile content chunkSize now tz cache
      = (runLines chunkSize now tz (splitLines content).length (splitLines content) 0 [] cache).2.2
        ++ [⟨(splitLines content).length, (splitLines content).length,
             jsSortLogs tz (entriesOf now tz cache (splitLines content))⟩] := by
  have hunf : parseLogFile content chunkSize now tz cache
      = (runLines chunkSize now tz (splitLines content).length (splitLines content) 0 [] cache).2.2
        ++ [⟨(splitLines content).length, (splitLines content).length,
             jsSortLogs tz
               (runLines chunkSize now tz (splitLines content).length
                 (splitLines content) 0 [] cache).1⟩] := rfl
  rw [hunf, runLines_logs]
  simp

/-- C1: after the final line the driver sorts the complete entry sequence
    once by the descending-timestamp comparator and posts a terminal
    snapshot with `processed = total` (the line count of the split
    document) whose `logs` are exactly that sorted sequence; the sorted
    sequence is a permutation of the collected entries, and whenever all
    entry timestamps parse as valid dates it is pairwise ordered by
    descending time value. -/
theorem c1_terminal_sorted (content : String) (chunkSize : Nat) (now : String) (tz : Int)
    (cache : DateCache) :
    (parseLogFile content chunkSize now tz cache).getLast?
      = some ⟨(splitLines content).length, (splitLines content).length,
              jsSortLogs tz (entriesOf now tz cache (splitLines content))⟩ ∧
    (jsSortLogs tz (entriesOf now tz cache (splitLines content))).Perm
      (entriesOf now tz cache (splitLines content)) ∧
    ((∀ e ∈ entriesOf now tz cache (splitLines content), (sortKey tz e).isSome = true) →
      (jsSortLogs tz (entriesOf now tz cache (splitLines content))).Pairwise
        (fun a b => sortLe tz a b = true)) := by
  refine ⟨?_, jsSortLogs_perm tz _, fun h => jsSortLogs_pairwise h⟩
  rw [parseLogFile_unfold, List.getLast?_concat]

/-- Witness for C1: on the concrete two-line document both timestamps
    parse, so the terminal sequence is pairwise sorted by descending
    time value. -/
theorem c1_terminal_sorted_witness :
    (jsSortLogs 0 (entriesOf "N" 0 [] (splitLines twoLinesC))).Pairwise
      (fun a b => sortLe 0 a b = true) :=
  (c1_terminal_sorted twoLinesC 5000 "N" 0 []).2.2 (by decide)

theorem cacheAfter_nil {now : String} {tz : Int} {c : DateCache} :
    cacheAfter now tz c [] = c := rfl

theorem cacheAfter_cons_none {now : String} {tz : Int} {c : DateCache} {l : String}
    {ls : List String} (h : processLine now tz c l = none) :
    cacheAfter now tz c (l :: ls) = cacheAfter now tz c ls := by
  simp [cacheAfter, entriesAcc_cons_none h]

theorem cacheAfter_cons_some {now : String} {tz : Int} {c c' : DateCache} {l : String}
    {e : Entry} {ls : List String} (h : processLine now tz c l = some (e, c')) :
    cacheAfter now tz c (l :: ls) = cacheAfter now tz c' ls := by
  simp [cacheAfter, entriesAcc_cons_some h]

theorem entriesOf_cons_none {now : String} {tz : Int} {c : DateCache} {l : String}
    {ls : List String} (h : processLine now tz c l = none) :
    entriesOf now tz c (l :: ls) = entriesOf now tz c ls := by
  simp [entriesOf, entriesAcc_cons_none h]

theorem entriesOf_cons_some {now : String} {tz : Int} {c c' : DateCache} {l : String}
    {e : Entry} {ls : List String} (h : processLine now tz c l = some (e, c')) :
    entriesOf now tz c (l :: ls) = e :: entriesOf now tz c' ls := by
  simp [entriesOf, entriesAcc_cons_some h]

/-- Which snapshots the worker loop posts: exactly one per line index
    that satisfies the chunk condition *and* whose line yields an entry,
    carrying the line count and the entries accumulated through that
    line. -/
theorem runLines_msgs_mem (cs : Nat) (now : String) (tz : Int) (total : Nat) :
    ∀ (ls : List String) (i : Nat) (logs : List Entry) (c : DateCache) (p : Progress),
    p ∈ (runLines cs now tz total ls i logs c).2.2 ↔
      ∃ j x, ls.get? j = some x ∧ p.processed = i + j ∧ emitCond cs (i + j) = true ∧
        (processLine now tz (cacheAfter now tz c (ls.take j)) x).isSome = true ∧
        p.total = total ∧ p.logs = logs ++ entriesOf now tz c (ls.take (j + 1)) := by
  intro ls
  induction ls with
  | nil => intro i logs c p; simp [runLines]
  | cons l rest ih =>
    intro i logs c p
    rcases hpl : processLine now tz c l with _ | ⟨e, c'⟩
    · rw [runLines, hpl, ih]
      constructor
      · rintro ⟨j, x, hget, hproc, hemit, hsome, htot, hlogs⟩
        refine ⟨j + 1, x, by simpa using hget, by omega, ?_, ?_, htot, ?_⟩
        · have hj : i + (j + 1) = i + 1 + j := by omega
          rw [hj]; exact hemit
        · rw [List.take_succ_cons, cacheAfter_cons_none hpl]; exact hsome
        · rw [List.take_succ_cons, entriesOf_cons_none hpl]; exact hlogs
      · rintro ⟨j, x, hget, hproc, hemit, hsome, htot, hlogs⟩
        match j, hget with
        | 0, hget =>
          exfalso
          have hx : x = l := by simpa using hget.symm
          rw [hx, List.take_zero, cacheAfter_nil, hpl] at hsome
          simp at hsome
        | j' + 1, hget =>
          refine ⟨j', x, by simpa using hget, by omega, ?_, ?_, htot, ?_⟩
          · have hj : i + 1 + j' = i + (j' + 1) := by omega
            rw [hj]; exact hemit
          · rw [List.take_succ_cons, cacheAfter_cons_none hpl] at hsome; exact hsome
          · rw [List.take_succ_cons, entriesOf_cons_none hpl] at hlogs; exact hlogs
    · rw [runLines, hpl]
      have hsplit :
          p ∈ (match runLines cs now tz total rest (i + 1) (logs ++ [e]) c' with
               | (lg, cf, msgs) =>
                 if emitCond cs i then (lg, cf, (⟨i, total, logs ++ [e]⟩ : Progress) :: msgs)
                 else (lg, cf, msgs)).2.2 ↔
          ((emitCond cs i = true ∧ p = ⟨i, total, logs ++ [e]⟩) ∨
            p ∈ (runLines cs now tz total rest (i + 1) (logs ++ [e]) c').2.2) := by
        rcases hemit : emitCond cs i <;> simp [hemit]
      rw [hsplit, ih]
      obtain ⟨pp, pt, pl⟩ := p
      constructor
      · rintro (⟨hemit, heq⟩ | ⟨j, x, hget, hproc, hemit, hsome, htot, hlogs⟩)
        · obtain ⟨rfl, rfl, rfl⟩ : pp = i ∧ pt = total ∧ pl = logs ++ [e] := by
            simpa [Progress.mk.injEq] using heq
          refine ⟨0, l, by simp, by simp, by simpa using hemit, ?_, rfl, ?_⟩
          · rw [List.take_zero, cacheAfter_nil, hpl]; rfl
          · rw [List.take_succ_cons, List.take_zero, entriesOf_cons_some hpl]
            simp [entriesOf, entriesAcc]
        · refine ⟨j + 1, x, by simpa using hget, by simp at hproc ⊢; omega, ?_, ?_, htot, ?_⟩
          · have hj : i + (j + 1) = i + 1 + j := by omega
            rw [hj]; exact hemit
          · rw [List.take_succ_cons, cacheAfter_cons_some hpl]; exact hsome
          · rw [List.take_succ_cons, entriesOf_cons_some hpl]
            simpa [List.append_assoc] using hlogs
      · rintro ⟨j, x, hget, hproc, hemit, hsome, htot, hlogs⟩
        match j, hget with
        | 0, hget =>
          have hx : x = l := by simpa using hget.symm
          left
          subst hx
          simp only [List.take_succ_cons, List.take_zero, entriesOf_cons_some hpl] at hlogs
          simp only [List.take_zero] at hproc hemit hsome ⊢
          refine ⟨by simpa using hemit, ?_⟩
          simp only [Progress.mk.injEq]
          refine ⟨by simpa using hproc, htot, ?_⟩
          simpa [entriesOf, entriesAcc] using hlogs
        | j' + 1, hget =>
          right
          refine ⟨j', x, by simpa using hget, by simp at hproc ⊢; omega, ?_, ?_, htot, ?_⟩
          · have hj : i + 1 + j' = i + (j' + 1) := by omega
            rw [hj]; exact hemit
          · rw [List.take_succ_cons, cacheAfter_cons_some hpl] at hsome; exact hsome
          · rw [List.take_succ_cons, entriesOf_cons_some hpl] at hlogs
            simpa [List.append_assoc] using hlogs

/-- C5 (amended): the terminal snapshot carries `processed = total` (the
    line count) with the sorted entries; and an intermediate snapshot
    `{processed: j, total, logs}` is posted exactly for those line
    indices `j` that satisfy the chunk condition (`chunkSize` positive
    and `j` an exact multiple of it) *and* whose line yields an entry —
    a blank or malformed line at such an index posts nothing (it still
    advances the index, so malformed lines count toward `processed`
    without contributing an entry); the snapshot's `logs` are the
    entries accumulated through line `j` in parse order. -/
theorem c5_snapshot_schedule (content : String) (chunkSize : Nat) (now : String) (tz : Int)
    (cache : DateCache) :
    (parseLogFile content chunkSize now tz cache).getLast?
      = some ⟨(splitLines content).length, (splitLines content).length,
              jsSortLogs tz (entriesOf now tz cache (splitLines content))⟩ ∧
    ∀ p : Progress, p ∈ (parseLogFile content chunkSize now tz cache).dropLast ↔
      ∃ j x, (splitLines content).get? j = some x ∧ p.processed = j ∧
        emitCond chunkSize j = true ∧
        (processLine now tz (cacheAfter now tz cache ((splitLines content).take j)) x).isSome
          = true ∧
        p.total = (splitLines content).length ∧
        p.logs = entriesOf now tz cache ((splitLines content).take (j + 1)) := by
  constructor
  · rw [parseLogFile_unfold, List.getLast?_concat]
  · intro p
    rw [parseLogFile_unfold, List.dropLast_concat, runLines_msgs_mem]
    simp

/-- Witness for C5: on the one-line document `c5wC` the single line (at
    index 0, a multiple of 5000) yields an entry, and the posted
    intermediate snapshot `c5wP` matches the characterization. -/
theorem c5_snapshot_schedule_witness :
    ∃ j x, (splitLines c5wC).get? j = some x ∧ c5wP.processed = j ∧
      emitCond 5000 j = true ∧
      (processLine "N" 0 (cacheAfter "N" 0 [] ((splitLines c5wC).take j)) x).isSome = true ∧
      c5wP.total = (splitLines c5wC).length ∧
      c5wP.logs = entriesOf "N" 0 [] ((splitLines c5wC).take (j + 1)) :=
  ((c5_snapshot_schedule c5wC 5000 "N" 0 []).2 c5wP).mp (by
    have h : (parseLogFile c5wC 5000 "N" 0 []).dropLast = [c5wP] := rfl
    rw [h]
    exact List.mem_singleton_self _)

/-! ### Clock independence (C8). -/

theorem jsOr_truthy {a b : JsVal} (h : jsTruthy a = true) : jsOr a b = a := by
  simp [jsOr, h]

theorem jsOr_falsy {a b : JsVal} (h : jsTruthy a = false) : jsOr a b = b := by
  simp [jsOr, h]

/-- A record with its own truthy timestamp field produces the same entry
    whatever the wall clock reads. -/
theorem buildEntry_now_eq {d : JsVal} (h : tsTruthy d = true) (n₁ n₂ : String) (tz : Int)
    (c : DateCache) (line : String) :
    buildEntry n₁ tz c d line = buildEntry n₂ tz c d line := by
  have hts : jsOr (jsGet d "Timestamp") (jsOr (jsGet d "timestamp") (.str n₁))
           = jsOr (jsGet d "Timestamp") (jsOr (jsGet d "timestamp") (.str n₂)) := by
    rcases h' : jsTruthy (jsGet d "Timestamp") with _ | _
    · have h2 : jsTruthy (jsGet d "timestamp") = true := by
        simpa [tsTruthy, h'] using h
      rw [jsOr_falsy h', jsOr_falsy h', jsOr_truthy h2, jsOr_truthy h2]
    · rw [jsOr_truthy h', jsOr_truthy h']
  unfold buildEntry buildEntryCore
  rw [hts]

theorem processLine_now_eq {line : String}
    (h : (parseLineData line).all tsTruthy = true) (n₁ n₂ : String) (tz : Int)
    (c : DateCache) :
    processLine n₁ tz c line = processLine n₂ tz c line := by
  unfold processLine
  rcases hd : parseLineData line with _ | d
  · rfl
  · rw [hd] at h
    exact buildEntry_now_eq (by simpa using h) n₁ n₂ tz c line

theorem runLines_now_eq (cs : Nat) (tz : Int) (total : Nat) (n₁ n₂ : String) :
    ∀ (ls : List String), (∀ l ∈ ls, (parseLineData l).all tsTruthy = true) →
    ∀ (i : Nat) (logs : List Entry) (c : DateCache),
    runLines cs n₁ tz total ls i logs c = runLines cs n₂ tz total ls i logs c := by
  intro ls
  induction ls with
  | nil => intro _ i logs c; rfl
  | cons l rest ih =>
    intro h i logs c
    have hrest : ∀ l' ∈ rest, (parseLineData l').all tsTruthy = true :=
      fun l' hl' => h l' (by simp [hl'])
    have hl := processLine_now_eq (h l (by simp)) n₁ n₂ tz c
    rw [runLines, runLines, ← hl]
    rcases hpl : processLine n₁ tz c l with _ | ⟨e, c'⟩ <;>
      simp only [ih hrest]

/-- C8 (amended): the driver is a pure function of the document, the
    chunk size, the time zone, the wall clock and the starting cache, so
    two runs agree in full (snapshots included, hence also set-equality
    and the final order) whenever they read the same clock; and even
    with *different* clock readings the runs coincide provided every
    line that decodes to a record carries its own truthy timestamp —
    the wall clock leaks into an entry only through a record with no
    truthy `Timestamp`/`timestamp` field (the counterexample). -/
theorem c8_idempotent_modulo_clock (content : String) (chunkSize : Nat) (tz : Int)
    (cache : DateCache) (n₁ n₂ : String)
    (h : ∀ l ∈ splitLines content, (parseLineData l).all tsTruthy = true) :
    parseLogFile content chunkSize n₁ tz cache = parseLogFile content chunkSize n₂ tz cache := by
  have hrl := runLines_now_eq chunkSize tz (splitLines content).length n₁ n₂
    (splitLines content) h 0 [] cache
  have h₁ : parseLogFile content chunkSize n₁ tz cache
      = (runLines chunkSize n₁ tz (splitLines content).length (splitLines content) 0 [] cache).2.2
        ++ [⟨(splitLines content).length, (splitLines content).length,
             jsSortLogs tz
               (runLines chunkSize n₁ tz (splitLines content).length
                 (splitLines content) 0 [] cache).1⟩] := rfl
  have h₂ : parseLogFile content chunkSize n₂ tz cache
      = (runLines chunkSize n₂ tz (splitLines content).length (splitLines content) 0 [] cache).2.2
        ++ [⟨(splitLines content).length, (splitLines content).length,
             jsSortLogs tz
               (runLines chunkSize n₂ tz (splitLines content).length
                 (splitLines content) 0 [] cache).1⟩] := rfl
  rw [h₁, h₂, hrl]

/-- Witness for C8: every line of the two-line text document carries its
    own timestamp, so two runs with different wall clocks coincide. -/
theorem c8_idempotent_modulo_clock_witness :
    parseLogFile twoLinesC 5000 "2024-01-01T00:00:00.000Z" 0 []
      = parseLogFile twoLinesC 5000 "2025-06-07T08:09:10.111Z" 0 [] :=
  c8_idempotent_modulo_clock twoLinesC 5000 0 [] "2024-01-01T00:00:00.000Z"
    "2025-06-07T08:09:10.111Z" (by decide)

/-! ### Determinism of classification (C9) and the wall-clock timestamp
    (C10). -/

/-- The classification triple (type, level, statusCode) an entry carries
    is computed from the record alone: it does not depend on the wall
    clock, the time zone or the date-cache state. -/
theorem buildEntryCore_proj (n₁ n₂ : String) (tz₁ tz₂ : Int) (c₁ c₂ : DateCache)
    (d : JsVal) (line : String) :
    (buildEntryCore n₁ tz₁ c₁ d line).map (fun p => (p.1.type, p.1.level, p.1.statusCode))
      = (buildEntryCore n₂ tz₂ c₂ d line).map (fun p => (p.1.type, p.1.level, p.1.statusCode)) := by
  simp only [buildEntryCore]
  rcases hdt : detectLogType d with u | ty <;> simp only [hdt]
  rcases hfm : formatMessage (jsOr (jsGet d "MessageTemplate") (jsGet d "Message"))
      (jsGet d "Properties") with u | msg <;> simp only [hfm]
  rcases hhm : httpMethodOf ty (jsGet (jsOr (jsGet d "Properties") (.obj .nil)) "Method") with
      _ | ⟨hm, hmc⟩ <;> simp only [hhm]
  rcases hsq : sqlInfoOf ty (jsOr (jsGet d "Properties") (.obj .nil)) msg with
      _ | ⟨sq, sqf, rp⟩ <;> simp only [hsq]
  rfl

/-- C9: classification is deterministic — for one and the same raw line,
    two parser runs (with any wall clocks, time zones and cache states)
    assign identical `type`, `level` and `statusCode` to the resulting
    entry, and agree on whether an entry results at all. -/
theorem c9_classification_deterministic (line : String) (n₁ n₂ : String) (tz₁ tz₂ : Int)
    (c₁ c₂ : DateCache) :
    (processLine n₁ tz₁ c₁ line).map (fun p => (p.1.type, p.1.level, p.1.statusCode))
      = (processLine n₂ tz₂ c₂ line).map (fun p => (p.1.type, p.1.level, p.1.statusCode)) := by
  unfold processLine
  rcases parseLineData line with _ | d
  · rfl
  · cases d
    case null => rfl
    case undefVal => rfl
    all_goals (simp only [buildEntry]; exact buildEntryCore_proj n₁ n₂ tz₁ tz₂ c₁ c₂ _ line)

/-- The timestamp stored in an entry and the hour derived from it, read
    off the success case of the loop body. -/
theorem buildEntryCore_fields (now : String) (tz : Int) (c : DateCache) (d : JsVal)
    (line : String) (p : Entry × DateCache)
    (h : buildEntryCore now tz c d line = some p) :
    p.1.timestamp = jsOr (jsGet d "Timestamp") (jsOr (jsGet d "timestamp") (.str now)) ∧
    p.1.hour = jsGetHours tz (jsTimeValue tz p.1.timestamp) := by
  simp only [buildEntryCore] at h
  split at h
  · exact absurd h (by simp)
  split at h
  · exact absurd h (by simp)
  split at h
  · exact absurd h (by simp)
  split at h
  · exact absurd h (by simp)
  have hinj := Option.some.inj h
  subst hinj
  exact ⟨rfl, rfl⟩

/-- `processLine` version of `buildEntryCore_fields`. -/
theorem processLine_fields (line now : String) (tz : Int) (c : DateCache)
    (p : Entry × DateCache) (hp : processLine now tz c line = some p) :
    ∃ d, parseLineData line = some d ∧
      p.1.timestamp = jsOr (jsGet d "Timestamp") (jsOr (jsGet d "timestamp") (.str now)) ∧
      p.1.hour = jsGetHours tz (jsTimeValue tz p.1.timestamp) := by
  unfold processLine at hp
  rcases hd : parseLineData line with _ | d <;> rw [hd] at hp
  · simp at hp
  · refine ⟨d, rfl, ?_⟩
    cases d
    case null => simp [buildEntry] at hp
    case undefVal => simp [buildEntry] at hp
    all_goals exact buildEntryCore_fields now tz c _ line p hp

/-- C10: a structured line whose record carries neither a truthy
    `Timestamp` nor a truthy `timestamp` field gets the wall-clock
    reading (the ISO string of the moment of parsing) as the entry
    timestamp, not anything derived from the line. -/
theorem c10_wallclock_timestamp (line now : String) (tz : Int) (c : DateCache)
    (data : JsVal) (p : Entry × DateCache)
    (hj : jsonParse line = some data)
    (h1 : jsTruthy (jsGet data "Timestamp") = false)
    (h2 : jsTruthy (jsGet data "timestamp") = false)
    (hp : processLine now tz c line = some p) :
    p.1.timestamp = .str now := by
  obtain ⟨d, hd, hts, _⟩ := processLine_fields line now tz c p hp
  have hdd : d = data := by
    unfold parseLineData at hd
    by_cases hb : jsIsBlank line
    · rw [if_pos hb] at hd; simp at hd
    · rw [if_neg hb, hj] at hd
      exact (Option.some.inj hd).symm
  rw [hdd] at hts
  rw [hts, jsOr_falsy h1, jsOr_falsy h2]

/-- Witness for C10: the timestampless structured line `lineC10` parsed
    at wall clock `2024-05-05T06:07:08.000Z` yields an entry stamped
    with exactly that string. -/
theorem c10_wallclock_timestamp_witness :
    pC10.1.timestamp = .str "2024-05-05T06:07:08.000Z" :=
  c10_wallclock_timestamp lineC10 "2024-05-05T06:07:08.000Z" 0 []
    (.obj (fieldsOf [("Level", .str "Error")])) pC10 rfl (by decide) (by decide) rfl

/-! ### The hour invariant (C4, amended). -/

theorem hour_lt_24 (x : Int) : ((x.emod 86400000) / 3600000).toNat < 24 := by
  have h0 : 0 ≤ x.emod 86400000 := Int.emod_nonneg x (by norm_num)
  have h1 : x.emod 86400000 < 86400000 := Int.emod_lt_of_pos x (by norm_num)
  omega

/-- C4 (amended): the `hour` of every built entry is `getHours` of the
    entry's timestamp: an integer `< 24` whenever the timestamp parses
    as a valid date — but `NaN` (modelled `none`), outside `[0, 23]`,
    when it does not; the unconditional claim fails on lines with
    unparseable timestamps (see the counterexample). -/
theorem c4_hour_range (line now : String) (tz : Int) (c : DateCache)
    (p : Entry × DateCache) (hp : processLine now tz c line = some p) :
    p.1.hour = (jsTimeValue tz p.1.timestamp).map
      (fun ms => (((ms + tz * 60000).emod 86400000) / 3600000).toNat) ∧
    (∀ hn, p.1.hour = some hn → hn < 24) ∧
    (jsTimeValue tz p.1.timestamp = none → p.1.hour = none) := by
  obtain ⟨d, _, _, hh⟩ := processLine_fields line now tz c p hp
  refine ⟨hh, ?_, ?_⟩
  · intro hn hhn
    rw [hh] at hhn
    rcases ht : jsTimeValue tz p.1.timestamp with _ | ms <;> rw [ht] at hhn
    · simp [jsGetHours] at hhn
    · simp only [jsGetHours, Option.map_some'] at hhn
      obtain rfl : _ = hn := Option.some.inj hhn
      exact hour_lt_24 (ms + tz * 60000)
  · intro ht
    rw [hh, ht]
    rfl

/-- Witness for C4: on the concrete line `lineC4` (timestamp
    `2024-01-01T10:00:00.000+00:00`, host zone UTC) the entry's hour is
    10, inside `[0, 23]`. -/
theorem c4_hour_range_witness :
    pC4.1.hour = some 10 ∧ (10 : Nat) < 24 :=
  ⟨by
    have h := (c4_hour_range lineC4 "N" 0 [] pC4 rfl).1
    rw [h]
    rfl,
   by decide⟩

/-! ### The detection chain (C2, amended). -/

/-- C2 (amended): on a record whose extracted source context is the
    string `s`, `detectLogType` evaluates the ordered first-match-wins
    substring chain Database → Migration → generic ORM → HTTP-family →
    Security → Static → App → Validation, falls back to the Level-based
    `Error`/`Warning` classification only when no substring matched, and
    defaults to `Log`; in particular a context containing both the
    Migrations substring and the generic ORM substring resolves to
    `Migration` *provided it does not also contain the Database
    substring*, which is tested first (the counterexample shows the
    unconditioned statement fails). -/
theorem c2_detection_chain (data : JsVal) (s : String)
    (h0 : data ≠ .null) (h1 : data ≠ .undefVal)
    (hsc : sourceContextOf data = .str s) :
    detectLogType data = .ok (detectChain s (jsGet data "Level")) ∧
    (includesS s "EntityFrameworkCore.Database" = true →
      detectLogType data = .ok "Database") ∧
    (includesS s "EntityFrameworkCore.Database" = false →
      includesS s "EntityFrameworkCore.Migrations" = true →
      includesS s "EntityFrameworkCore" = true →
      detectLogType data = .ok "Migration") ∧
    (includesS s "EntityFrameworkCore.Database" = false →
      includesS s "EntityFrameworkCore.Migrations" = false →
      includesS s "EntityFrameworkCore" = true →
      detectLogType data = .ok "ORM") ∧
    (includesS s "EntityFrameworkCore.Database" = false →
      includesS s "EntityFrameworkCore.Migrations" = false →
      includesS s "EntityFrameworkCore" = false →
      (includesS s "AspNetCore.Hosting.Diagnostics" = true ∨
       includesS s "AspNetCore.Routing" = true ∨
       includesS s "AspNetCore.Mvc" = true) →
      detectLogType data = .ok "HTTP") ∧
    (includesS s "EntityFrameworkCore.Database" = false →
      includesS s "EntityFrameworkCore.Migrations" = false →
      includesS s "EntityFrameworkCore" = false →
      includesS s "AspNetCore.Hosting.Diagnostics" = false →
      includesS s "AspNetCore.Routing" = false →
      includesS s "AspNetCore.Mvc" = false →
      includesS s "DataProtection" = true →
      detectLogType data = .ok "Security") ∧
    (includesS s "EntityFrameworkCore.Database" = false →
      includesS s "EntityFrameworkCore.Migrations" = false →
      includesS s "EntityFrameworkCore" = false →
      includesS s "AspNetCore.Hosting.Diagnostics" = false →
      includesS s "AspNetCore.Routing" = false →
      includesS s "AspNetCore.Mvc" = false →
      includesS s "DataProtection" = false →
      includesS s "StaticFiles" = true →
      detectLogType data = .ok "Static") ∧
    (includesS s "EntityFrameworkCore.Database" = false →
      includesS s "EntityFrameworkCore.Migrations" = false →
      includesS s "EntityFrameworkCore" = false →
      includesS s "AspNetCore.Hosting.Diagnostics" = false →
      includesS s "AspNetCore.Routing" = false →
      includesS s "AspNetCore.Mvc" = false →
      includesS s "DataProtection" = false →
      includesS s "StaticFiles" = false →
      includesS s "Lifetime" = true →
      detectLogType data = .ok "App") ∧
    (includesS s "EntityFrameworkCore.Database" = false →
      includesS s "EntityFrameworkCore.Migrations" = false →
      includesS s "EntityFrameworkCore" = false →
      includesS s "AspNetCore.Hosting.Diagnostics" = false →
      includesS s "AspNetCore.Routing" = false →
      includesS s "AspNetCore.Mvc" = false →
      includesS s "DataProtection" = false →
      includesS s "StaticFiles" = false →
      includesS s "Lifetime" = false →
      includesS s "Validation" = true →
      detectLogType data = .ok "Validation") ∧
    (includesS s "EntityFrameworkCore.Database" = false →
      includesS s "EntityFrameworkCore.Migrations" = false →
      includesS s "EntityFrameworkCore" = false →
      includesS s "AspNetCore.Hosting.Diagnostics" = false →
      includesS s "AspNetCore.Routing" = false →
      includesS s "AspNetCore.Mvc" = false →
      includesS s "DataProtection" = false →
      includesS s "StaticFiles" = false →
      includesS s "Lifetime" = false →
      includesS s "Validation" = false →
      detectLogType data
        = .ok (if jsEqStr (jsGet data "Level") "Error" then "Error"
               else if jsEqStr (jsGet data "Level") "Warning" then "Warning"
               else "Log")) := by
  have hA : detectLogType data = .ok (detectChain s (jsGet data "Level")) := by
    cases data
    case null => exact absurd rfl h0
    case undefVal => exact absurd rfl h1
    all_goals simp only [detectLogType, hsc]
  refine ⟨hA, ?_, ?_, ?_, ?_, ?_, ?_, ?_, ?_, ?_⟩ <;> intros <;> rw [hA] <;>
    first
      | (rename_i hhttp
         rcases hhttp with h | h | h <;> simp [detectChain, *])
      | simp [detectChain, *]

/-- Witness for C2: a record whose source context is exactly
    `EntityFrameworkCore.Migrations` — which contains both the
    Migrations substring and the generic ORM substring, but not the
    Database one — is classified `Migration`. -/
theorem c2_detection_chain_witness :
    detectLogType (.obj (fieldsOf [("SourceContext", .str "EntityFrameworkCore.Migrations")]))
      = .ok "Migration" :=
  (c2_detection_chain (.obj (fieldsOf [("SourceContext", .str "EntityFrameworkCore.Migrations")]))
      "EntityFrameworkCore.Migrations" (fun h => nomatch h) (fun h => nomatch h) rfl).2.2.1
    (by decide) (by decide) (by decide)

/-! ### Message formatting (C7, amended). -/

/-- C3: the claim says an unparseable timestamp makes the formatter
    return the original string unchanged, and the `catch { return
    timestamp }` of the source was clearly written to do exactly that —
    but `new Date` never throws on a string, so the catch is dead code
    and the worker instead renders the `NaN` components: on the
    unparseable input `"not a date"` the formatter returns (and caches)
    `"NaN/NaN/NaN, NaN:NaN:NaN"`, which differs from the input. -/
theorem c3_formatDate_unparseable :
    formatDate 0 [] (.str "not a date")
      = ("NaN/NaN/NaN, NaN:NaN:NaN", [(.str "not a date", "NaN/NaN/NaN, NaN:NaN:NaN")]) ∧
    "NaN/NaN/NaN, NaN:NaN:NaN" ≠ "not a date" :=
  ⟨rfl, by decide⟩

/-- C4 (counterexample): the fallback grammar accepts any digits in the
    date and time fields, so the line
    `2024-99-99 99:99:99.9 +00:00 [INF] hello` yields an entry whose
    timestamp `2024-99-99T99:99:99.9+00:00` is an Invalid Date; its
    `getHours()` is `NaN` (modelled `none`), which is not an integer in
    `[0, 23]`, refuting the claim for entries with unparseable
    timestamps. -/
theorem c4_nan_hour_counterexample :
    (processLine "2024-01-01T00:00:00Z" 0 [] "2024-99-99 99:99:99.9 +00:00 [INF] hello").map
        (fun p => p.1.hour)
      = some none :=
  rfl

/-- C5 (counterexample): the progress `postMessage` sits inside the
    entry-producing branch of the loop, so a line index that is a
    multiple of the chunk size emits no snapshot when that line is blank
    or malformed.  For the two-line document `"\n<entry line>"` index 0
    is a multiple of 5000 but line 0 is blank: the driver emits only the
    terminal snapshot (processed = 2), and no snapshot with
    processed = 0 exists, contradicting the claimed emission at every
    multiple index. -/
theorem c5_skipped_snapshot_counterexample :
    (parseLogFile "\n2024-01-01 10:00:00.000 +00:00 [INF] hello" 5000
        "2024-01-01T00:00:00Z" 0 []).map Progress.processed = [2] ∧
    (0 : Nat) % 5000 = 0 :=
  ⟨rfl, rfl⟩

/-- C6 (counterexample): the `FROM` pattern of `formatSql` demands a
    literal dot after the (optionally bracketed) qualifier, so an
    unqualified `FROM Users` never matches and the table is reported as
    `Unknown`, contradicting "both schema-qualified and unqualified FROM
    clauses yield the table name".  Moreover, on the Example-2 line the
    boilerplate strip `^Executed DbCommand.*?\]` consumes through the
    first `]` — the one closing `[dbo]` — leaving `.[Users] WHERE Id = 5`,
    which matches no statement signature: the pipeline classifies the
    line as Database but summarizes it with the 80-character truncation
    fallback, not a 2-column SELECT on `Users`. -/
theorem c6_formatSql_counterexample :
    formatSql "SELECT Id, Name FROM Users WHERE Id = 5"
      = "<select>SELECT 2 cols</select> FROM <table>Unknown</table> <where>WHERE Id = 5</where>" ∧
    (processLine "2024-01-01T00:00:00Z" 0 [] ex2Line).map (fun p => (p.1.type, p.1.sqlFormatted))
      = some ("Database", some ".[Users] WHERE Id = 5...") :=
  ⟨rfl, rfl⟩

/-- C6 (amended): the summarizer counts the comma-separated projection of
    a SELECT, but extracts the table name only from a dot-qualified FROM
    clause (bracketed or not), reporting `Unknown` otherwise; the
    Example-2 line keeps type `Database` while its summary falls back to
    truncation because the prefix strip consumes through the first `]`.
    Witnessed by the qualified Example-2 command text, an unqualified
    variant, and the full pipeline on the Example-2 line. -/
theorem c6_formatSql_amended :
    formatSql "SELECT Id, Name FROM [dbo].[Users] WHERE Id = 5"
      = "<select>SELECT 2 cols</select> FROM <table>Users</table> <where>WHERE Id = 5</where>" ∧
    formatSql "SELECT Id, Name FROM Users WHERE Id = 5"
      = "<select>SELECT 2 cols</select> FROM <table>Unknown</table> <where>WHERE Id = 5</where>" ∧
    (processLine "2024-01-01T00:00:00Z" 0 [] ex2Line).map
        (fun p => (p.1.type, p.1.sql, p.1.sqlFormatted))
      = some ("Database",
              some (.str "Executed DbCommand ... SELECT Id, Name FROM [dbo].[Users] WHERE Id = 5"),
              some ".[Users] WHERE Id = 5...") :=
  ⟨rfl, rfl, rfl⟩

/-- C2 (counterexample): the chain tests the Database substring before
    the Migrations one, so a source context containing both
    `EntityFrameworkCore.Database` and `EntityFrameworkCore.Migrations`
    — which also contains the generic substring `EntityFrameworkCore` —
    resolves to `Database`, not to `Migration` as the claim's
    "in particular" consequence asserts for every context containing
    both the Migrations and the generic ORM substrings. -/
theorem c2_migrations_counterexample :
    detectLogType (.obj (fieldsOf
        [("SourceContext", .str "EntityFrameworkCore.Database EntityFrameworkCore.Migrations")]))
      = .ok "Database" ∧
    includesS "EntityFrameworkCore.Database EntityFrameworkCore.Migrations"
      "EntityFrameworkCore.Migrations" = true ∧
    includesS "EntityFrameworkCore.Database EntityFrameworkCore.Migrations"
      "EntityFrameworkCore" = true ∧
    ("Database" : String) ≠ "Migration" :=
  ⟨rfl, rfl, rfl, by decide⟩

/-- C8 (counterexample): a structured line with no timestamp field takes
    the wall clock as its timestamp, so parsing the document
    `{"Level":"Error"}` twice at different moments yields entries that
    differ (already in their timestamp), refuting unconditional
    idempotence. -/
theorem c8_wallclock_counterexample :
    (parseLogFile "\x7b\"Level\":\"Error\"\x7d" 5000 "2024-01-01T00:00:00.000Z" 0 []).map
        (fun p => p.logs.map (fun e => jsCoerce e.timestamp))
      = [["2024-01-01T00:00:00.000Z"], ["2024-01-01T00:00:00.000Z"]] ∧
    (parseLogFile "\x7b\"Level\":\"Error\"\x7d" 5000 "2025-06-07T08:09:10.111Z" 0 []).map
        (fun p => p.logs.map (fun e => jsCoerce e.timestamp))
      = [["2025-06-07T08:09:10.111Z"], ["2025-06-07T08:09:10.111Z"]] ∧
    ("2024-01-01T00:00:00.000Z" : String) ≠ "2025-06-07T08:09:10.111Z" :=
  ⟨rfl, rfl, by decide⟩

end Logson
